import Mathlib

/-!
# Registration module of the JavaScript runtime (`server/runtime_javascript_init.go`)

A shallow embedding of the registry that script modules fill in while they are
initialised, followed by theorems about it.

* Script values (`goja.Value`) and the Go values they export to are two small
  value languages, `JsValue` and `GoValue`.
* A Go `map[string]T` is a `Finmap` with `String` keys.
* A `panic(r.NewTypeError(msg))` is the result `Except.error msg`; every entry
  point returns the module as it stands when the call ends together with that
  result, so a failing call still shows what it left behind.
* The announcement callback is a log: each call appends its `(mode, key)` together
  with the registry as the callback finds it at that moment, so the log shows
  whether a handler was stored before or after it was announced.
-/

namespace Server

/-! ## Script values and the engine interface -/

/-- Handle of a script function (`goja.Callable`); two handles are the same
function exactly when the numbers agree. -/
abbrev Callable := Nat

/-- Go values (`interface{}`) as produced by `Value.Export()`. -/
inductive GoValue where
  | nil
  | bool (b : Bool)
  | int (n : Int)
  | string (s : String)
  | func (c : Callable)
  | map (m : List (String × GoValue))
  | slice (xs : List GoValue)

/-- Script values (`goja.Value`). An object carries its own enumerable
properties in order; a property lookup takes the first binding of a key. -/
inductive JsValue where
  | null
  | undefined
  | boolean (b : Bool)
  | number (n : Int)
  | string (s : String)
  | function (c : Callable)
  | object (props : List (String × JsValue))
  | array (items : List JsValue)

/-- The value `goja.Undefined()`. -/
def Undefined : JsValue := JsValue.undefined

/-- The test `goja.IsNull`. -/
def IsNull : JsValue → Bool
  | .null => true
  | _ => false

/-- The test `goja.IsUndefined`. -/
def IsUndefined : JsValue → Bool
  | .undefined => true
  | _ => false

mutual
/-- The conversion `Value.Export()`: null and undefined export to `nil`, a string to
a Go string, a function to a Go func, an object to a `map[string]interface{}`. -/
def JsValue.Export : JsValue → GoValue
  | .null => .nil
  | .undefined => .nil
  | .boolean b => .bool b
  | .number n => .int n
  | .string s => .string s
  | .function c => .func c
  | .object props => .map (exportProps props)
  | .array items => .slice (exportItems items)
/-- Export of the properties of an object, key by key. -/
def exportProps : List (String × JsValue) → List (String × GoValue)
  | [] => []
  | (k, v) :: rest => (k, v.Export) :: exportProps rest
/-- Export of the elements of an array. -/
def exportItems : List JsValue → List GoValue
  | [] => []
  | v :: rest => v.Export :: exportItems rest
end

mutual
/-- The conversion `r.ToValue`: a Go func is wrapped as a script function, `nil`
becomes null, a Go map becomes an object over the same keys. -/
def ToValue : GoValue → JsValue
  | .nil => .null
  | .bool b => .boolean b
  | .int n => .number n
  | .string s => .string s
  | .func c => .function c
  | .map m => .object (toValueProps m)
  | .slice xs => .array (toValueItems xs)
/-- Conversion of the entries of a Go map. -/
def toValueProps : List (String × GoValue) → List (String × JsValue)
  | [] => []
  | (k, v) :: rest => (k, ToValue v) :: toValueProps rest
/-- Conversion of the elements of a Go slice. -/
def toValueItems : List GoValue → List JsValue
  | [] => []
  | v :: rest => ToValue v :: toValueItems rest
end

/-- The test `goja.AssertFunction`: the callable behind a function value, if any. -/
def AssertFunction : JsValue → Option Callable
  | .function c => some c
  | _ => none

/-- A call from script (`goja.FunctionCall`): the positional arguments. -/
structure FunctionCall where
  Arguments : List JsValue

/-- The accessor `FunctionCall.Argument`: the argument at `idx`, or undefined
when the call has fewer arguments. -/
def FunctionCall.Argument (f : FunctionCall) (idx : Nat) : JsValue :=
  f.Arguments.getD idx Undefined

/-! ## Declarations used by the file and made elsewhere -/

/-- Modelled from the spec: the type `RuntimeExecutionMode` is declared outside
this file; these are the event categories the registry distinguishes, the three
name-keyed ones first, then the singleton ones. -/
inductive RuntimeExecutionMode where
  | RPC
  | Before
  | After
  | Matchmaker
  | TournamentEnd
  | TournamentReset
  | LeaderboardReset
  deriving DecidableEq, Repr

/-- What the file takes from outside: `strings.ToLower` of the Go library, the
constants `API_PREFIX` and `RTAPI_PREFIX`, and the helper `getJsString`, which
either yields the match-type name or raises a type error. Every definition
below takes them as the parameter `h`. -/
structure Host where
  ToLower : String → String
  API_PREFIX : String
  RTAPI_PREFIX : String
  getJsString : JsValue → Except String String

/-! ## The registry -/

/-- The six handlers of one match type (`jsMatchHandlers`); a Go func field
may be nil, here `none`. -/
structure jsMatchHandlers where
  initFn : Option Callable := none
  joinAttemptFn : Option Callable := none
  joinFn : Option Callable := none
  leaveFn : Option Callable := none
  loopFn : Option Callable := none
  terminateFn : Option Callable := none
  deriving DecidableEq, Repr

/-- The map `RuntimeJavascriptMatchCallbacks`, from match-type name to handlers. -/
abbrev RuntimeJavascriptMatchCallbacks := Finmap (fun _ : String => jsMatchHandlers)

/-- The struct `RuntimeJavascriptCallbacks`: three name-keyed maps and four
singleton slots. -/
structure RuntimeJavascriptCallbacks where
  Rpc : Finmap (fun _ : String => Callable)
  Before : Finmap (fun _ : String => Callable)
  After : Finmap (fun _ : String => Callable)
  Matchmaker : Option Callable
  TournamentEnd : Option Callable
  TournamentReset : Option Callable
  LeaderboardReset : Option Callable
  deriving DecidableEq

/-- One call of the announcement callback: its two arguments, and the registry the
module points to when the callback runs, which is all the callback can observe
of the registration. -/
structure Announcement where
  mode : RuntimeExecutionMode
  key : String
  registry : RuntimeJavascriptCallbacks
  deriving DecidableEq

/-- The struct `RuntimeJavascriptInitModule`. The field `announced` is the log
of the calls made to `announceCallbackFn`, oldest first. -/
structure RuntimeJavascriptInitModule where
  Callbacks : RuntimeJavascriptCallbacks
  MatchCallbacks : RuntimeJavascriptMatchCallbacks
  announced : List Announcement
  deriving DecidableEq

/-- The constructor `NewRuntimeJavascriptInitModule`: empty maps, empty slots,
nothing announced yet. -/
def NewRuntimeJavascriptInitModule : RuntimeJavascriptInitModule where
  Callbacks :=
    { Rpc := ∅
      Before := ∅
      After := ∅
      Matchmaker := none
      TournamentEnd := none
      TournamentReset := none
      LeaderboardReset := none }
  MatchCallbacks := ∅
  announced := []

/-- The method `registerCallbackFn`: one write, chosen by the mode. -/
def registerCallbackFn (im : RuntimeJavascriptInitModule) (mode : RuntimeExecutionMode)
    (key : String) (fn : Callable) : RuntimeJavascriptInitModule :=
  match mode with
  | .RPC => { im with Callbacks := { im.Callbacks with Rpc := im.Callbacks.Rpc.insert key fn } }
  | .Before =>
    { im with Callbacks := { im.Callbacks with Before := im.Callbacks.Before.insert key fn } }
  | .After =>
    { im with Callbacks := { im.Callbacks with After := im.Callbacks.After.insert key fn } }
  | .Matchmaker => { im with Callbacks := { im.Callbacks with Matchmaker := some fn } }
  | .TournamentEnd => { im with Callbacks := { im.Callbacks with TournamentEnd := some fn } }
  | .TournamentReset => { im with Callbacks := { im.Callbacks with TournamentReset := some fn } }
  | .LeaderboardReset =>
    { im with Callbacks := { im.Callbacks with LeaderboardReset := some fn } }

/-- The field `announceCallbackFn`, as a log: each call appends its arguments and
the registry as it stands when the call is made. -/
def announceCallbackFn (im : RuntimeJavascriptInitModule) (mode : RuntimeExecutionMode)
    (key : String) : RuntimeJavascriptInitModule :=
  { im with announced := im.announced ++ [⟨mode, key, im.Callbacks⟩] }

/-- What a call leaves: the module when the call ends, and either the value
returned to the script or the message of the type error raised. -/
abbrev Outcome := RuntimeJavascriptInitModule × Except String JsValue

/-- An entry point bound into the script environment. -/
abbrev EntryFn := RuntimeJavascriptInitModule → FunctionCall → Outcome

/-! ## The entry points -/

/-- The entry point `registerRpc`: name, then handler; the key is the lowercased name. -/
def registerRpc (h : Host) : EntryFn := fun im f =>
  let fName := f.Argument 0
  if IsNull fName || IsUndefined fName then
    (im, .error "expects a non empty string")
  else
    match fName.Export with
    | .string key =>
      if key = "" then
        (im, .error "expects a non empty string")
      else
        match AssertFunction (f.Argument 1) with
        | none => (im, .error "expects a function")
        | some fn =>
          let lKey := h.ToLower key
          let im := registerCallbackFn im .RPC lKey fn
          let im := announceCallbackFn im .RPC lKey
          (im, .ok Undefined)
    | _ => (im, .error "expects a non empty string")

/-- The entry point `registerReqBefore`: the key is the lowercased `API_PREFIX + name`, in the Before map. -/
def registerReqBefore (h : Host) : EntryFn := fun im f =>
  let fName := f.Argument 0
  if IsNull fName || IsUndefined fName then
    (im, .error "expects a non empty string")
  else
    match fName.Export with
    | .string key =>
      if key = "" then
        (im, .error "expects a non empty string")
      else
        match AssertFunction (f.Argument 1) with
        | none => (im, .error "expects a function")
        | some fn =>
          let lKey := h.ToLower (h.API_PREFIX ++ key)
          let im := registerCallbackFn im .Before lKey fn
          let im := announceCallbackFn im .Before lKey
          (im, .ok Undefined)
    | _ => (im, .error "expects a non empty string")

/-- The entry point `registerReqAfter`: the key is the lowercased `API_PREFIX + name`, in the After map. -/
def registerReqAfter (h : Host) : EntryFn := fun im f =>
  let fName := f.Argument 0
  if IsNull fName || IsUndefined fName then
    (im, .error "expects a non empty string")
  else
    match fName.Export with
    | .string key =>
      if key = "" then
        (im, .error "expects a non empty string")
      else
        match AssertFunction (f.Argument 1) with
        | none => (im, .error "expects a function")
        | some fn =>
          let lKey := h.ToLower (h.API_PREFIX ++ key)
          let im := registerCallbackFn im .After lKey fn
          let im := announceCallbackFn im .After lKey
          (im, .ok Undefined)
    | _ => (im, .error "expects a non empty string")

/-- The entry point `registerRTBefore`: the key is the lowercased `RTAPI_PREFIX + name`, in the Before map. -/
def registerRTBefore (h : Host) : EntryFn := fun im f =>
  let fName := f.Argument 0
  if IsNull fName || IsUndefined fName then
    (im, .error "expects a non empty string")
  else
    match fName.Export with
    | .string key =>
      if key = "" then
        (im, .error "expects a non empty string")
      else
        match AssertFunction (f.Argument 1) with
        | none => (im, .error "expects a function")
        | some fn =>
          let lKey := h.ToLower (h.RTAPI_PREFIX ++ key)
          let im := registerCallbackFn im .Before lKey fn
          let im := announceCallbackFn im .Before lKey
          (im, .ok Undefined)
    | _ => (im, .error "expects a non empty string")

/-- The entry point `registerRTAfter`: the key is the lowercased `RTAPI_PREFIX + name`, in the After map. -/
def registerRTAfter (h : Host) : EntryFn := fun im f =>
  let fName := f.Argument 0
  if IsNull fName || IsUndefined fName then
    (im, .error "expects a non empty string")
  else
    match fName.Export with
    | .string key =>
      if key = "" then
        (im, .error "expects a non empty string")
      else
        match AssertFunction (f.Argument 1) with
        | none => (im, .error "expects a function")
        | some fn =>
          let lKey := h.ToLower (h.RTAPI_PREFIX ++ key)
          let im := registerCallbackFn im .After lKey fn
          let im := announceCallbackFn im .After lKey
          (im, .ok Undefined)
    | _ => (im, .error "expects a non empty string")

/-- The entry point `registerMatchmakerMatched`: the handler is read from argument 1. -/
def registerMatchmakerMatched (_h : Host) : EntryFn := fun im f =>
  match AssertFunction (f.Argument 1) with
  | none => (im, .error "expects a function")
  | some fn =>
    let im := registerCallbackFn im .Matchmaker "" fn
    let im := announceCallbackFn im .Matchmaker ""
    (im, .ok Undefined)

/-- The entry point `registerTournamentEnd`: the handler is read from argument 1. -/
def registerTournamentEnd (_h : Host) : EntryFn := fun im f =>
  match AssertFunction (f.Argument 1) with
  | none => (im, .error "expects a function")
  | some fn =>
    let im := registerCallbackFn im .TournamentEnd "" fn
    let im := announceCallbackFn im .TournamentEnd ""
    (im, .ok Undefined)

/-- The entry point `registerTournamentReset`: the handler is read from argument 1. -/
def registerTournamentReset (_h : Host) : EntryFn := fun im f =>
  match AssertFunction (f.Argument 1) with
  | none => (im, .error "expects a function")
  | some fn =>
    let im := registerCallbackFn im .TournamentReset "" fn
    let im := announceCallbackFn im .TournamentReset ""
    (im, .ok Undefined)

/-- The entry point `registerLeaderboardReset`: the handler is read from argument 1. -/
def registerLeaderboardReset (_h : Host) : EntryFn := fun im f =>
  match AssertFunction (f.Argument 1) with
  | none => (im, .error "expects a function")
  | some fn =>
    let im := registerCallbackFn im .LeaderboardReset "" fn
    let im := announceCallbackFn im .LeaderboardReset ""
    (im, .ok Undefined)

/-- The entry point `registerMatch`: the six handlers are collected in the local
`functions`, one role after the other, and the map is written once at the end. -/
def registerMatch (h : Host) : EntryFn := fun im f =>
  match h.getJsString (f.Argument 0) with
  | .error e => (im, .error e)
  | .ok name =>
    let funcObj := f.Argument 1
    if IsNull funcObj || IsUndefined funcObj then
      (im, .error "expects an object")
    else
    match funcObj.Export with
    | .map funcMap =>
      let functions : jsMatchHandlers := {}
      match funcMap.lookup "match_init" with
      | none => (im, .error "match_init not found")
      | some fnValue =>
      match AssertFunction (ToValue fnValue) with
      | none => (im, .error "match_init value not a valid function")
      | some fn =>
      let functions := { functions with initFn := some fn }
      match funcMap.lookup "match_join_attempt" with
      | none => (im, .error "match_join_attempt not found")
      | some fnValue =>
      match AssertFunction (ToValue fnValue) with
      | none => (im, .error "match_join_attempt value not a valid function")
      | some fn =>
      let functions := { functions with joinAttemptFn := some fn }
      match funcMap.lookup "match_join" with
      | none => (im, .error "match_join not found")
      | some fnValue =>
      match AssertFunction (ToValue fnValue) with
      | none => (im, .error "match_join value not a valid function")
      | some fn =>
      let functions := { functions with joinFn := some fn }
      match funcMap.lookup "match_leave" with
      | none => (im, .error "match_leave not found")
      | some fnValue =>
      match AssertFunction (ToValue fnValue) with
      | none => (im, .error "match_leave value not a valid function")
      | some fn =>
      let functions := { functions with leaveFn := some fn }
      match funcMap.lookup "match_loop" with
      | none => (im, .error "match_loop not found")
      | some fnValue =>
      match AssertFunction (ToValue fnValue) with
      | none => (im, .error "match_loop value not a valid function")
      | some fn =>
      let functions := { functions with loopFn := some fn }
      match funcMap.lookup "match_terminate" with
      | none => (im, .error "match_terminate not found")
      | some fnValue =>
      match AssertFunction (ToValue fnValue) with
      | none => (im, .error "match_terminate value not a valid function")
      | some fn =>
      let functions := { functions with terminateFn := some fn }
      ({ im with MatchCallbacks := im.MatchCallbacks.insert name functions }, .ok Undefined)
    | _ => (im, .error "expects an object")

/-- The method `mappings`: the ten entry points by the name under which the
constructor binds them. -/
def mappings (h : Host) : List (String × EntryFn) :=
  [ ("registerRpc", registerRpc h),
    ("registerReqBefore", registerReqBefore h),
    ("registerReqAfter", registerReqAfter h),
    ("registerRTBefore", registerRTBefore h),
    ("registerRTAfter", registerRTAfter h),
    ("registerMatchmakerMatched", registerMatchmakerMatched h),
    ("registerTournamentEnd", registerTournamentEnd h),
    ("registerTournamentReset", registerTournamentReset h),
    ("registerLeaderboardReset", registerLeaderboardReset h),
    ("registerMatch", registerMatch h) ]

/-- One call from script: the entry point bound under `name` is applied; a name
that is not bound reaches no entry point and leaves the module as it is. -/
def invoke (h : Host) (im : RuntimeJavascriptInitModule) (name : String)
    (f : FunctionCall) : Outcome :=
  match (mappings h).lookup name with
  | some fn => fn im f
  | none => (im, .error "not a function")

/-- The module after a script has made the given calls, in order, on a freshly
constructed module; a call that raises leaves what it had written. -/
def run (h : Host) (calls : List (String × FunctionCall)) : RuntimeJavascriptInitModule :=
  calls.foldl (fun im c => (invoke h im c.1 c.2).1) NewRuntimeJavascriptInitModule

/-! ## Vocabulary of the specification -/

/-- Whether a call ended in a type error. -/
def Outcome.raised (o : Outcome) : Bool :=
  match o.2 with
  | .error _ => true
  | .ok _ => false

/-- The handler the dispatcher finds for a category and key: plain map access for
the name-keyed categories, the slot (whatever the key) for the singleton ones. -/
def stored (cb : RuntimeJavascriptCallbacks) (mode : RuntimeExecutionMode)
    (key : String) : Option Callable :=
  match mode with
  | .RPC => cb.Rpc.lookup key
  | .Before => cb.Before.lookup key
  | .After => cb.After.lookup key
  | .Matchmaker => cb.Matchmaker
  | .TournamentEnd => cb.TournamentEnd
  | .TournamentReset => cb.TournamentReset
  | .LeaderboardReset => cb.LeaderboardReset

/-- A bundle with all six roles set to a callable. -/
def jsMatchHandlers.complete (b : jsMatchHandlers) : Bool :=
  b.initFn.isSome && b.joinAttemptFn.isSome && b.joinFn.isSome && b.leaveFn.isSome &&
    b.loopFn.isSome && b.terminateFn.isSome

/-- The six required roles of a match handler object, in the order in which the
specification lists them. -/
def matchRoles : List String :=
  ["match_init", "match_join_attempt", "match_join", "match_leave", "match_loop",
    "match_terminate"]

/-- The specification of the callable test on an exported value (`isCallable`): the
handle of a Go func, nothing for any other value. -/
def GoValue.callable : GoValue → Option Callable
  | .func c => some c
  | _ => none

/-- The specification of one role check: the complaint about `role` in the exported
mapping `m`, if there is one: not found when the role is absent, not a valid
function when it is bound to something that is not callable. -/
def roleError (m : List (String × GoValue)) (role : String) : Option String :=
  match m.lookup role with
  | none => some (role ++ " not found")
  | some v =>
    match v.callable with
    | none => some (role ++ " value not a valid function")
    | some _ => none

/-- The specification of the bundle check: the complaint about the first role, in
the fixed order, that is absent or not callable. -/
def firstRoleError (m : List (String × GoValue)) : Option String :=
  matchRoles.findSome? (roleError m)

/-- The bundle the specification assembles from a mapping: each role is the callable
bound to its key. -/
def bundleOf (m : List (String × GoValue)) : jsMatchHandlers where
  initFn := (m.lookup "match_init").bind GoValue.callable
  joinAttemptFn := (m.lookup "match_join_attempt").bind GoValue.callable
  joinFn := (m.lookup "match_join").bind GoValue.callable
  leaveFn := (m.lookup "match_leave").bind GoValue.callable
  loopFn := (m.lookup "match_loop").bind GoValue.callable
  terminateFn := (m.lookup "match_terminate").bind GoValue.callable

/-- The specification of the key normalizer (4.1): the raw name must be present, a
string and not empty. -/
def normalizeName (v : JsValue) : Except String String :=
  match v with
  | .string s => if s = "" then .error "expects a non empty string" else .ok s
  | _ => .error "expects a non empty string"

/-- The specification of the handler validator (4.2): the raw handler must be
callable. -/
def validateHandler (v : JsValue) : Except String Callable :=
  match v with
  | .function c => .ok c
  | _ => .error "expects a function"

/-- The specification of a name-keyed registration (4.3): validate the name, then
the handler, store under the computed key, then announce category and key. -/
def registerNamed (mode : RuntimeExecutionMode) (keyOf : String → String) : EntryFn :=
  fun im f =>
    match normalizeName (f.Argument 0) with
    | .error e => (im, .error e)
    | .ok name =>
      match validateHandler (f.Argument 1) with
      | .error e => (im, .error e)
      | .ok fn =>
        (announceCallbackFn (registerCallbackFn im mode (keyOf name) fn) mode (keyOf name),
          .ok Undefined)

/-- The specification of a singleton registration (4.3): no name; validate the
handler read from argument 1, store it in the slot, then announce the category
with the empty key. -/
def registerSingleton (mode : RuntimeExecutionMode) : EntryFn :=
  fun im f =>
    match validateHandler (f.Argument 1) with
    | .error e => (im, .error e)
    | .ok fn => (announceCallbackFn (registerCallbackFn im mode "" fn) mode "", .ok Undefined)

/-- The specification of the bundle assembler (4.4), for a name the helper has
accepted: the handler object must export to a mapping, all six roles must
pass, and only then is the bundle written under the name. -/
def assembleMatch (name : String) (obj : JsValue) : EntryFn :=
  fun im _ =>
    match obj.Export with
    | .map m =>
      match firstRoleError m with
      | some msg => (im, .error msg)
      | none =>
        ({ im with MatchCallbacks := im.MatchCallbacks.insert name (bundleOf m) }, .ok Undefined)
    | _ => (im, .error "expects an object")

/-- The storage a registration writes: the handler of a category under a key (the
key of a singleton category is the empty string), or the bundle of a match type. -/
inductive Target where
  | callback (mode : RuntimeExecutionMode) (key : String)
  | bundle (name : String)
  deriving DecidableEq, Repr

/-- The storage the call of the entry point bound under `entry` targets, when its
name passes: for a name-keyed entry point the category and the computed key, for a
singleton entry point the category with the empty key, for `registerMatch` the
match-type name the helper yields. -/
def targetOf (h : Host) (entry : String) (f : FunctionCall) : Option Target :=
  let named := fun (mode : RuntimeExecutionMode) (keyOf : String → String) =>
    match normalizeName (f.Argument 0) with
    | .ok n => some (Target.callback mode (keyOf n))
    | .error _ => none
  match entry with
  | "registerRpc" => named .RPC h.ToLower
  | "registerReqBefore" => named .Before (fun n => h.ToLower (h.API_PREFIX ++ n))
  | "registerReqAfter" => named .After (fun n => h.ToLower (h.API_PREFIX ++ n))
  | "registerRTBefore" => named .Before (fun n => h.ToLower (h.RTAPI_PREFIX ++ n))
  | "registerRTAfter" => named .After (fun n => h.ToLower (h.RTAPI_PREFIX ++ n))
  | "registerMatchmakerMatched" => some (.callback .Matchmaker "")
  | "registerTournamentEnd" => some (.callback .TournamentEnd "")
  | "registerTournamentReset" => some (.callback .TournamentReset "")
  | "registerLeaderboardReset" => some (.callback .LeaderboardReset "")
  | "registerMatch" =>
    match h.getJsString (f.Argument 0) with
    | .ok name => some (.bundle name)
    | .error _ => none
  | _ => none

/-- The registration keys of the specification: an Rpc key is a lowercased non-empty
name; a Before or After key is a lowercased non-empty name behind one of the two
namespace markers; a singleton category has the empty key. -/
def keyShape (h : Host) (mode : RuntimeExecutionMode) (key : String) : Prop :=
  match mode with
  | .RPC => ∃ n, n ≠ "" ∧ key = h.ToLower n
  | .Before | .After =>
    ∃ n, n ≠ "" ∧
      (key = h.ToLower (h.API_PREFIX ++ n) ∨ key = h.ToLower (h.RTAPI_PREFIX ++ n))
  | _ => key = ""

/-- What the key invariant asks of `strings.ToLower`: lowercasing twice is lowercasing
once, a non-empty string stays non-empty, and a concatenation is lowercased part
by part. -/
structure Host.LowerLaws (h : Host) : Prop where
  idem : ∀ s, h.ToLower (h.ToLower s) = h.ToLower s
  nonempty : ∀ s, s ≠ "" → h.ToLower s ≠ ""
  append : ∀ a b, h.ToLower (a ++ b) = h.ToLower a ++ h.ToLower b

/-- The key invariant of the registry: every key of the three name-keyed maps is
non-empty and in lowercase form, and every key of the Before and After maps begins
with one of the two lowercased namespace markers. -/
def keysNormalized (h : Host) (cb : RuntimeJavascriptCallbacks) : Prop :=
  (∀ k ∈ cb.Rpc, k ≠ "" ∧ h.ToLower k = k) ∧
    (∀ k ∈ cb.Before, k ≠ "" ∧ h.ToLower k = k ∧
      ((∃ r, k = h.ToLower h.API_PREFIX ++ r) ∨ (∃ r, k = h.ToLower h.RTAPI_PREFIX ++ r))) ∧
    (∀ k ∈ cb.After, k ≠ "" ∧ h.ToLower k = k ∧
      ((∃ r, k = h.ToLower h.API_PREFIX ++ r) ∨ (∃ r, k = h.ToLower h.RTAPI_PREFIX ++ r)))

/-- The registry `a` differs from `b` at most in what is stored for `mode` under
`key`: for a name-keyed category the two other maps and the four slots are equal
and the map of the category agrees on every other key; for a singleton category
the three maps and the three other slots are equal. -/
def RuntimeJavascriptCallbacks.differsOnlyAt (a b : RuntimeJavascriptCallbacks)
    (mode : RuntimeExecutionMode) (key : String) : Prop :=
  match mode with
  | .RPC => a = { b with Rpc := a.Rpc } ∧ ∀ k, k ≠ key → a.Rpc.lookup k = b.Rpc.lookup k
  | .Before =>
    a = { b with Before := a.Before } ∧ ∀ k, k ≠ key → a.Before.lookup k = b.Before.lookup k
  | .After =>
    a = { b with After := a.After } ∧ ∀ k, k ≠ key → a.After.lookup k = b.After.lookup k
  | .Matchmaker => a = { b with Matchmaker := a.Matchmaker }
  | .TournamentEnd => a = { b with TournamentEnd := a.TournamentEnd }
  | .TournamentReset => a = { b with TournamentReset := a.TournamentReset }
  | .LeaderboardReset => a = { b with LeaderboardReset := a.LeaderboardReset }

/-! ## A concrete environment -/

/-- Lowercasing of the ASCII letters of a string, character by character. -/
def asciiToLower (s : String) : String :=
  String.mk (s.data.map Char.toLower)

/-- Modelled from the spec: the helper `getJsString` is defined outside this file;
the name must resolve to a non-empty string, which is used verbatim, and anything
else is a type error. -/
def getJsString (v : JsValue) : Except String String :=
  match v.Export with
  | .string s => if s = "" then .error "expects a non empty string" else .ok s
  | _ => .error "expects a non empty string"

/-- An environment on which the definitions can be run: ASCII lowercasing, two
distinct namespace markers, and the name helper as the specification has it. -/
def sampleHost : Host where
  ToLower := asciiToLower
  API_PREFIX := "/nakama.api.Nakama/"
  RTAPI_PREFIX := "*rtapi.Envelope_"
  getJsString := getJsString

/-- A handler object binding all six roles, to the callables 1 to 6. -/
def sampleHandlers : JsValue :=
  .object
    [("match_init", .function 1), ("match_join_attempt", .function 2),
      ("match_join", .function 3), ("match_leave", .function 4),
      ("match_loop", .function 5), ("match_terminate", .function 6)]

/-- A handler object that lacks `match_terminate`. -/
def sampleHandlersNoTerminate : JsValue :=
  .object
    [("match_init", .function 1), ("match_join_attempt", .function 2),
      ("match_join", .function 3), ("match_leave", .function 4),
      ("match_loop", .function 5)]

/-! ## The entry points and their specification -/

/-- Argument 0 of a call with at least one argument. -/
theorem argument_zero (v : JsValue) (vs : List JsValue) :
    FunctionCall.Argument ⟨v :: vs⟩ 0 = v := rfl

/-- Argument 1 of a call with at least two arguments. -/
theorem argument_one (v w : JsValue) (vs : List JsValue) :
    FunctionCall.Argument ⟨v :: w :: vs⟩ 1 = w := rfl

theorem registerRpc_eq (h : Host) : registerRpc h = registerNamed .RPC h.ToLower := by
  funext im f
  unfold registerRpc registerNamed
  cases h0 : f.Argument 0 <;> cases h1 : f.Argument 1 <;>
    simp [IsNull, IsUndefined, JsValue.Export, AssertFunction, normalizeName, validateHandler] <;>
    split <;> simp

theorem registerReqBefore_eq (h : Host) : registerReqBefore h = registerNamed .Before (fun n => h.ToLower (h.API_PREFIX ++ n)) := by
  funext im f
  unfold registerReqBefore registerNamed
  cases h0 : f.Argument 0 <;> cases h1 : f.Argument 1 <;>
    simp [IsNull, IsUndefined, JsValue.Export, AssertFunction, normalizeName, validateHandler] <;>
    split <;> simp

theorem registerReqAfter_eq (h : Host) : registerReqAfter h = registerNamed .After (fun n => h.ToLower (h.API_PREFIX ++ n)) := by
  funext im f
  unfold registerReqAfter registerNamed
  cases h0 : f.Argument 0 <;> cases h1 : f.Argument 1 <;>
    simp [IsNull, IsUndefined, JsValue.Export, AssertFunction, normalizeName, validateHandler] <;>
    split <;> simp

theorem registerRTBefore_eq (h : Host) : registerRTBefore h = registerNamed .Before (fun n => h.ToLower (h.RTAPI_PREFIX ++ n)) := by
  funext im f
  unfold registerRTBefore registerNamed
  cases h0 : f.Argument 0 <;> cases h1 : f.Argument 1 <;>
    simp [IsNull, IsUndefined, JsValue.Export, AssertFunction, normalizeName, validateHandler] <;>
    split <;> simp

theorem registerRTAfter_eq (h : Host) : registerRTAfter h = registerNamed .After (fun n => h.ToLower (h.RTAPI_PREFIX ++ n)) := by
  funext im f
  unfold registerRTAfter registerNamed
  cases h0 : f.Argument 0 <;> cases h1 : f.Argument 1 <;>
    simp [IsNull, IsUndefined, JsValue.Export, AssertFunction, normalizeName, validateHandler] <;>
    split <;> simp

theorem registerMatchmakerMatched_eq (h : Host) : registerMatchmakerMatched h = registerSingleton .Matchmaker := by
  funext im f
  unfold registerMatchmakerMatched registerSingleton
  cases h1 : f.Argument 1 <;> simp [AssertFunction, validateHandler]

theorem registerTournamentEnd_eq (h : Host) : registerTournamentEnd h = registerSingleton .TournamentEnd := by
  funext im f
  unfold registerTournamentEnd registerSingleton
  cases h1 : f.Argument 1 <;> simp [AssertFunction, validateHandler]

theorem registerTournamentReset_eq (h : Host) : registerTournamentReset h = registerSingleton .TournamentReset := by
  funext im f
  unfold registerTournamentReset registerSingleton
  cases h1 : f.Argument 1 <;> simp [AssertFunction, validateHandler]

theorem registerLeaderboardReset_eq (h : Host) : registerLeaderboardReset h = registerSingleton .LeaderboardReset := by
  funext im f
  unfold registerLeaderboardReset registerSingleton
  cases h1 : f.Argument 1 <;> simp [AssertFunction, validateHandler]

/-- Wrapping an exported value and asking for its callable is the callable test on
the exported value. -/
theorem assertFunction_toValue (v : GoValue) : AssertFunction (ToValue v) = v.callable := by
  cases v <;> rfl

theorem registerMatch_eq (h : Host) (im : RuntimeJavascriptInitModule) (f : FunctionCall) :
    registerMatch h im f =
      match h.getJsString (f.Argument 0) with
      | .error e => (im, .error e)
      | .ok name => assembleMatch name (f.Argument 1) im f := by
  unfold registerMatch assembleMatch
  cases h.getJsString (f.Argument 0) with
  | error e => rfl
  | ok name =>
    cases h1 : f.Argument 1 <;> simp [IsNull, IsUndefined, JsValue.Export]
    rename_i props
    generalize exportProps props = m
    simp only [firstRoleError, matchRoles, List.findSome?, roleError, bundleOf,
      assertFunction_toValue]
    cases m.lookup "match_init" with
    | none => rfl
    | some v1 =>
    dsimp only
    cases hc1 : v1.callable with
    | none => rfl
    | some c1 =>
    dsimp only
    cases m.lookup "match_join_attempt" with
    | none => rfl
    | some v2 =>
    dsimp only
    cases hc2 : v2.callable with
    | none => rfl
    | some c2 =>
    dsimp only
    cases m.lookup "match_join" with
    | none => rfl
    | some v3 =>
    dsimp only
    cases hc3 : v3.callable with
    | none => rfl
    | some c3 =>
    dsimp only
    cases m.lookup "match_leave" with
    | none => rfl
    | some v4 =>
    dsimp only
    cases hc4 : v4.callable with
    | none => rfl
    | some c4 =>
    dsimp only
    cases m.lookup "match_loop" with
    | none => rfl
    | some v5 =>
    dsimp only
    cases hc5 : v5.callable with
    | none => rfl
    | some c5 =>
    dsimp only
    cases m.lookup "match_terminate" with
    | none => rfl
    | some v6 =>
    dsimp only
    cases hc6 : v6.callable with
    | none => rfl
    | some c6 =>
    simp [Option.bind, hc1, hc2, hc3, hc4, hc5, hc6]

/-- The three ways a name-keyed registration can go: stored and announced, refused
for its name, or refused for its handler once the name has passed. -/
theorem registerNamed_cases (mode : RuntimeExecutionMode) (keyOf : String → String)
    (im : RuntimeJavascriptInitModule) (f : FunctionCall) :
    (∃ name fn, f.Argument 0 = .string name ∧ name ≠ "" ∧ f.Argument 1 = .function fn ∧
        registerNamed mode keyOf im f =
          (announceCallbackFn (registerCallbackFn im mode (keyOf name) fn) mode (keyOf name),
            .ok Undefined)) ∨
      (((∀ s, f.Argument 0 ≠ .string s) ∨ f.Argument 0 = .string "") ∧
        registerNamed mode keyOf im f = (im, .error "expects a non empty string")) ∨
      ((∃ name, f.Argument 0 = .string name ∧ name ≠ "") ∧ (∀ c, f.Argument 1 ≠ .function c) ∧
        registerNamed mode keyOf im f = (im, .error "expects a function")) := by
  unfold registerNamed
  cases h0 : f.Argument 0 <;> simp [normalizeName]
  rename_i name
  by_cases hname : name = ""
  · simp [hname]
  · cases h1 : f.Argument 1 <;> simp [hname, validateHandler]

/-- The two ways a singleton registration can go, decided by argument 1 alone. -/
theorem registerSingleton_cases (mode : RuntimeExecutionMode)
    (im : RuntimeJavascriptInitModule) (f : FunctionCall) :
    (∃ fn, f.Argument 1 = .function fn ∧
        registerSingleton mode im f =
          (announceCallbackFn (registerCallbackFn im mode "" fn) mode "", .ok Undefined)) ∨
      ((∀ c, f.Argument 1 ≠ .function c) ∧
        registerSingleton mode im f = (im, .error "expects a function")) := by
  unfold registerSingleton
  cases h1 : f.Argument 1 <;> simp [validateHandler]

/-- After `registerCallbackFn` the dispatcher finds the handler under the mode and key. -/
theorem stored_registerCallbackFn (im : RuntimeJavascriptInitModule)
    (mode : RuntimeExecutionMode) (key : String) (fn : Callable) :
    stored (registerCallbackFn im mode key fn).Callbacks mode key = some fn := by
  cases mode <;> simp [stored, registerCallbackFn, Finmap.lookup_insert]

/-- Announcing does not touch the registry. -/
theorem announceCallbackFn_registry (im : RuntimeJavascriptInitModule)
    (mode : RuntimeExecutionMode) (key : String) :
    (announceCallbackFn im mode key).Callbacks = im.Callbacks ∧
      (announceCallbackFn im mode key).MatchCallbacks = im.MatchCallbacks := ⟨rfl, rfl⟩

/-! ## Name-keyed registrations -/

/-- C1: for every registry state, non-empty name and callable, each of the five
name-keyed entry points succeeds and afterwards a lookup of the computed key
returns the callable: `registerRpc` in the Rpc map under the lowercased name,
`registerReqBefore` and `registerReqAfter` in the Before and After maps under the
lowercased `API_PREFIX ++ name`, `registerRTBefore` and `registerRTAfter` in the
Before and After maps under the lowercased `RTAPI_PREFIX ++ name`. -/
theorem named_registration_stores (h : Host) (im : RuntimeJavascriptInitModule)
    (name : String) (hname : name ≠ "") (fn : Callable) (rest : List JsValue) :
    ((registerRpc h im ⟨.string name :: .function fn :: rest⟩).2 = .ok Undefined ∧
      (registerRpc h im ⟨.string name :: .function fn :: rest⟩).1.Callbacks.Rpc.lookup
        (h.ToLower name) = some fn) ∧
    ((registerReqBefore h im ⟨.string name :: .function fn :: rest⟩).2 = .ok Undefined ∧
      (registerReqBefore h im ⟨.string name :: .function fn :: rest⟩).1.Callbacks.Before.lookup
        (h.ToLower (h.API_PREFIX ++ name)) = some fn) ∧
    ((registerReqAfter h im ⟨.string name :: .function fn :: rest⟩).2 = .ok Undefined ∧
      (registerReqAfter h im ⟨.string name :: .function fn :: rest⟩).1.Callbacks.After.lookup
        (h.ToLower (h.API_PREFIX ++ name)) = some fn) ∧
    ((registerRTBefore h im ⟨.string name :: .function fn :: rest⟩).2 = .ok Undefined ∧
      (registerRTBefore h im ⟨.string name :: .function fn :: rest⟩).1.Callbacks.Before.lookup
        (h.ToLower (h.RTAPI_PREFIX ++ name)) = some fn) ∧
    ((registerRTAfter h im ⟨.string name :: .function fn :: rest⟩).2 = .ok Undefined ∧
      (registerRTAfter h im ⟨.string name :: .function fn :: rest⟩).1.Callbacks.After.lookup
        (h.ToLower (h.RTAPI_PREFIX ++ name)) = some fn) := by
  simp [registerRpc_eq, registerReqBefore_eq, registerReqAfter_eq, registerRTBefore_eq,
    registerRTAfter_eq, registerNamed, normalizeName, validateHandler, hname,
    registerCallbackFn, announceCallbackFn, Finmap.lookup_insert, argument_zero, argument_one]

/-- C1 at a concrete input: on an empty registry, `registerRpc("Foo", fn)` succeeds and
the handler is found under `"foo"`. -/
theorem named_registration_stores_witness :
    (registerRpc sampleHost NewRuntimeJavascriptInitModule
        ⟨[.string "Foo", .function 7]⟩).2 = .ok Undefined ∧
      (registerRpc sampleHost NewRuntimeJavascriptInitModule
        ⟨[.string "Foo", .function 7]⟩).1.Callbacks.Rpc.lookup "foo" = some 7 :=
  (named_registration_stores sampleHost NewRuntimeJavascriptInitModule "Foo" (by decide) 7 []).1

/-- C2: each of the five name-keyed entry points raises a type error exactly when the
name is null, undefined, not a string or the empty string, or the handler is not
callable; in every other case it returns normally. Null, undefined and the number
42 are among the handlers that are not callable. -/
theorem named_registration_raises_iff (h : Host) (im : RuntimeJavascriptInitModule)
    (f : FunctionCall) (ep : EntryFn)
    (hep : ep ∈ [registerRpc h, registerReqBefore h, registerReqAfter h,
      registerRTBefore h, registerRTAfter h]) :
    ((ep im f).raised = true ↔
      (f.Argument 0 = .null ∨ f.Argument 0 = .undefined ∨ (∀ s, f.Argument 0 ≠ .string s) ∨
        f.Argument 0 = .string "" ∨ (∀ c, f.Argument 1 ≠ .function c))) ∧
    ((ep im f).raised = false → (ep im f).2 = .ok Undefined) ∧
    (∀ c, JsValue.null ≠ .function c) ∧ (∀ c, JsValue.undefined ≠ .function c) ∧
    (∀ c, JsValue.number 42 ≠ .function c) := by
  have key : ∀ mode keyOf,
      ((registerNamed mode keyOf im f).raised = true ↔
        (f.Argument 0 = .null ∨ f.Argument 0 = .undefined ∨ (∀ s, f.Argument 0 ≠ .string s) ∨
          f.Argument 0 = .string "" ∨ (∀ c, f.Argument 1 ≠ .function c))) ∧
      ((registerNamed mode keyOf im f).raised = false →
        (registerNamed mode keyOf im f).2 = .ok Undefined) := by
    intro mode keyOf
    rcases registerNamed_cases mode keyOf im f with
      ⟨name, fn, h0, hne, h1, heq⟩ | ⟨hbad, heq⟩ | ⟨⟨name, h0, hne⟩, h1, heq⟩
    · simp [heq, Outcome.raised, h0, h1, hne]
    · rcases hbad with hbad | hbad
      · simp [heq, Outcome.raised, hbad]
      · simp [heq, Outcome.raised, hbad]
    · simp [heq, Outcome.raised, h1]
  have main : ∃ mode keyOf, ep = registerNamed mode keyOf := by
    simp only [List.mem_cons, List.mem_singleton, List.not_mem_nil, or_false] at hep
    rcases hep with rfl | rfl | rfl | rfl | rfl
    · exact ⟨_, _, registerRpc_eq h⟩
    · exact ⟨_, _, registerReqBefore_eq h⟩
    · exact ⟨_, _, registerReqAfter_eq h⟩
    · exact ⟨_, _, registerRTBefore_eq h⟩
    · exact ⟨_, _, registerRTAfter_eq h⟩
  obtain ⟨mode, keyOf, rfl⟩ := main
  exact ⟨(key mode keyOf).1, (key mode keyOf).2, by simp, by simp, by simp⟩

/-- C2 at a concrete input: `registerRpc("foo", 42)` raises. -/
theorem named_registration_raises_iff_witness :
    (registerRpc sampleHost NewRuntimeJavascriptInitModule
      ⟨[.string "foo", .number 42]⟩).raised = true :=
  (named_registration_raises_iff sampleHost NewRuntimeJavascriptInitModule
    ⟨[.string "foo", .number 42]⟩ (registerRpc sampleHost) (List.mem_cons_self _ _)).1.2
    (Or.inr (Or.inr (Or.inr (Or.inr (by simp [argument_one])))))

/-- Writing a key that a map already holds: the new value is the one found, the
key occurs once, and the map has as many keys as before the second write. -/
theorem insert_twice {β : Type} (m : Finmap (fun _ : String => β)) (k : String) (v w : β) :
    ((m.insert k v).insert k w).lookup k = some w ∧
      ((m.insert k v).insert k w).entries.keys.count k = 1 ∧
      ((m.insert k v).insert k w).keys.card = (m.insert k v).keys.card := by
  refine ⟨Finmap.lookup_insert _, ?_, ?_⟩
  · apply Multiset.count_eq_one_of_mem ((m.insert k v).insert k w).nodupKeys.nodup_keys
    exact Finmap.mem_def.mp (Finmap.mem_insert.mpr (Or.inl rfl))
  · congr 1
    ext a
    simp only [Finmap.mem_keys, Finmap.mem_insert]
    tauto

/-- The module left by a name-keyed registration whose arguments pass. -/
theorem registerNamed_state (mode : RuntimeExecutionMode) (keyOf : String → String)
    (im : RuntimeJavascriptInitModule) (name : String) (hname : name ≠ "") (fn : Callable)
    (rest : List JsValue) :
    (registerNamed mode keyOf im ⟨.string name :: .function fn :: rest⟩).1 =
      announceCallbackFn (registerCallbackFn im mode (keyOf name) fn) mode (keyOf name) := by
  simp [registerNamed, normalizeName, validateHandler, hname, argument_zero, argument_one]

/-- C3: two name-keyed registrations that compute the same key in the same map, the
second wins. After `registerRpc(n1, fn)` and `registerRpc(n2, fn2)` with equal
lowercased names, the key is bound to `fn2` (so not to `fn` when the two differ), it
occurs exactly once among the keys of the Rpc map, and the second call has not
changed the number of keys. The same holds in the Before map for any two of
`registerReqBefore`, `registerRTBefore` that compute the same key, and in the After
map for any two of `registerReqAfter`, `registerRTAfter`. -/
theorem same_key_last_write_wins (h : Host) (im : RuntimeJavascriptInitModule)
    (n1 n2 : String) (hn1 : n1 ≠ "") (hn2 : n2 ≠ "") (fn fn2 : Callable) :
    (h.ToLower n1 = h.ToLower n2 →
      let im1 := (registerRpc h im ⟨[.string n1, .function fn]⟩).1
      let im2 := (registerRpc h im1 ⟨[.string n2, .function fn2]⟩).1
      im2.Callbacks.Rpc.lookup (h.ToLower n1) = some fn2 ∧
        (fn ≠ fn2 → im2.Callbacks.Rpc.lookup (h.ToLower n1) ≠ some fn) ∧
        im2.Callbacks.Rpc.entries.keys.count (h.ToLower n1) = 1 ∧
        im2.Callbacks.Rpc.keys.card = im1.Callbacks.Rpc.keys.card) ∧
    (∀ e1 ∈ [(registerReqBefore h, h.API_PREFIX), (registerRTBefore h, h.RTAPI_PREFIX)],
      ∀ e2 ∈ [(registerReqBefore h, h.API_PREFIX), (registerRTBefore h, h.RTAPI_PREFIX)],
      h.ToLower (e1.2 ++ n1) = h.ToLower (e2.2 ++ n2) →
      let im1 := (e1.1 im ⟨[.string n1, .function fn]⟩).1
      let im2 := (e2.1 im1 ⟨[.string n2, .function fn2]⟩).1
      im2.Callbacks.Before.lookup (h.ToLower (e1.2 ++ n1)) = some fn2 ∧
        (fn ≠ fn2 → im2.Callbacks.Before.lookup (h.ToLower (e1.2 ++ n1)) ≠ some fn) ∧
        im2.Callbacks.Before.entries.keys.count (h.ToLower (e1.2 ++ n1)) = 1 ∧
        im2.Callbacks.Before.keys.card = im1.Callbacks.Before.keys.card) ∧
    (∀ e1 ∈ [(registerReqAfter h, h.API_PREFIX), (registerRTAfter h, h.RTAPI_PREFIX)],
      ∀ e2 ∈ [(registerReqAfter h, h.API_PREFIX), (registerRTAfter h, h.RTAPI_PREFIX)],
      h.ToLower (e1.2 ++ n1) = h.ToLower (e2.2 ++ n2) →
      let im1 := (e1.1 im ⟨[.string n1, .function fn]⟩).1
      let im2 := (e2.1 im1 ⟨[.string n2, .function fn2]⟩).1
      im2.Callbacks.After.lookup (h.ToLower (e1.2 ++ n1)) = some fn2 ∧
        (fn ≠ fn2 → im2.Callbacks.After.lookup (h.ToLower (e1.2 ++ n1)) ≠ some fn) ∧
        im2.Callbacks.After.entries.keys.count (h.ToLower (e1.2 ++ n1)) = 1 ∧
        im2.Callbacks.After.keys.card = im1.Callbacks.After.keys.card) := by
  have fin : ∀ (m : Finmap (fun _ : String => Callable)) (k : String),
      ((m.insert k fn).insert k fn2).lookup k = some fn2 ∧
        (fn ≠ fn2 → ((m.insert k fn).insert k fn2).lookup k ≠ some fn) ∧
        ((m.insert k fn).insert k fn2).entries.keys.count k = 1 ∧
        ((m.insert k fn).insert k fn2).keys.card = (m.insert k fn).keys.card := by
    intro m k
    obtain ⟨a, b, c⟩ := insert_twice m k fn fn2
    refine ⟨a, ?_, b, c⟩
    intro hne hl
    rw [a] at hl
    exact hne (Option.some.inj hl).symm
  refine ⟨?_, ?_, ?_⟩
  · intro hk
    simp only [registerRpc_eq, registerNamed_state _ _ _ _ hn1, registerNamed_state _ _ _ _ hn2,
      registerCallbackFn, announceCallbackFn, ← hk]
    exact fin _ _
  · intro e1 he1 e2 he2 hk
    simp only [List.mem_cons, List.mem_singleton, List.not_mem_nil, or_false] at he1 he2
    rcases he1 with rfl | rfl <;> rcases he2 with rfl | rfl <;>
      simp only [registerReqBefore_eq, registerRTBefore_eq, registerNamed_state _ _ _ _ hn1,
        registerNamed_state _ _ _ _ hn2, registerCallbackFn, announceCallbackFn, ← hk] <;>
      exact fin _ _
  · intro e1 he1 e2 he2 hk
    simp only [List.mem_cons, List.mem_singleton, List.not_mem_nil, or_false] at he1 he2
    rcases he1 with rfl | rfl <;> rcases he2 with rfl | rfl <;>
      simp only [registerReqAfter_eq, registerRTAfter_eq, registerNamed_state _ _ _ _ hn1,
        registerNamed_state _ _ _ _ hn2, registerCallbackFn, announceCallbackFn, ← hk] <;>
      exact fin _ _

/-- C3 at a concrete input: after `registerRpc("Foo", 7)` and `registerRpc("foo", 8)` on an
empty registry the key `"foo"` is bound to 8 and the Rpc map has one key. -/
theorem same_key_last_write_wins_witness :
    ((registerRpc sampleHost (registerRpc sampleHost NewRuntimeJavascriptInitModule
        ⟨[.string "Foo", .function 7]⟩).1 ⟨[.string "foo", .function 8]⟩).1.Callbacks.Rpc.lookup
        "foo" = some 8) ∧
      (registerRpc sampleHost (registerRpc sampleHost NewRuntimeJavascriptInitModule
        ⟨[.string "Foo", .function 7]⟩).1 ⟨[.string "foo", .function 8]⟩).1.Callbacks.Rpc.keys.card
        = 1 :=
  ⟨((same_key_last_write_wins sampleHost NewRuntimeJavascriptInitModule "Foo" "foo"
      (by decide) (by decide) 7 8).1 (by decide)).1, by decide⟩

/-! ## Match handler bundles -/

/-- A role passes its check exactly when it is bound to a callable. -/
theorem roleError_eq_none_iff (m : List (String × GoValue)) (role : String) :
    roleError m role = none ↔ ∃ c, (m.lookup role).bind GoValue.callable = some c := by
  unfold roleError
  cases m.lookup role with
  | none => simp
  | some v => cases hv : v.callable <;> simp [hv]

/-- A role fails its check exactly when it is absent or bound to a value that is
not a function. -/
theorem roleError_isSome_iff (m : List (String × GoValue)) (role : String) :
    (roleError m role).isSome = true ↔
      (m.lookup role = none ∨ ∃ v, m.lookup role = some v ∧ ∀ c, v ≠ .func c) := by
  unfold roleError
  cases m.lookup role with
  | none => simp
  | some v => cases v <;> simp [GoValue.callable]

/-- When no role is complained about, the assembled bundle has all six roles. -/
theorem bundleOf_complete (m : List (String × GoValue)) (hm : firstRoleError m = none) :
    (bundleOf m).complete = true := by
  simp only [firstRoleError, List.findSome?_eq_none_iff, roleError_eq_none_iff] at hm
  obtain ⟨c1, h1⟩ := hm "match_init" (by simp [matchRoles])
  obtain ⟨c2, h2⟩ := hm "match_join_attempt" (by simp [matchRoles])
  obtain ⟨c3, h3⟩ := hm "match_join" (by simp [matchRoles])
  obtain ⟨c4, h4⟩ := hm "match_leave" (by simp [matchRoles])
  obtain ⟨c5, h5⟩ := hm "match_loop" (by simp [matchRoles])
  obtain ⟨c6, h6⟩ := hm "match_terminate" (by simp [matchRoles])
  simp [bundleOf, jsMatchHandlers.complete, h1, h2, h3, h4, h5, h6]

/-- The two ways the assembler can go: the complete bundle is written under the
name, or the module is left as it was and an error is raised. -/
theorem assembleMatch_cases (name : String) (obj : JsValue)
    (im : RuntimeJavascriptInitModule) (f : FunctionCall) :
    (∃ b, b.complete = true ∧
        assembleMatch name obj im f =
          ({ im with MatchCallbacks := im.MatchCallbacks.insert name b }, .ok Undefined)) ∨
      (∃ msg, assembleMatch name obj im f = (im, .error msg)) := by
  unfold assembleMatch
  cases obj.Export with
  | map m =>
    dsimp only
    cases hm : firstRoleError m with
    | none => exact Or.inl ⟨bundleOf m, bundleOf_complete m hm, rfl⟩
    | some msg => exact Or.inr ⟨msg, rfl⟩
  | _ => exact Or.inr ⟨_, rfl⟩

/-- C4: for an accepted match-type name and a handler object whose exported mapping
binds all six role keys to callables, `registerMatch` succeeds; afterwards the
match-bundle map holds, under exactly the accepted name, the bundle whose six roles
are those callables, whatever was stored under that name before; the name occurs
once among the keys, and every other key (a differently cased spelling of the name
included) is bound as it was before. -/
theorem registerMatch_stores_bundle (h : Host) (im : RuntimeJavascriptInitModule)
    (f : FunctionCall) (name : String) (m : List (String × GoValue))
    (c1 c2 c3 c4 c5 c6 : Callable)
    (hname : h.getJsString (f.Argument 0) = .ok name)
    (hobj : (f.Argument 1).Export = .map m)
    (h1 : m.lookup "match_init" = some (.func c1))
    (h2 : m.lookup "match_join_attempt" = some (.func c2))
    (h3 : m.lookup "match_join" = some (.func c3))
    (h4 : m.lookup "match_leave" = some (.func c4))
    (h5 : m.lookup "match_loop" = some (.func c5))
    (h6 : m.lookup "match_terminate" = some (.func c6)) :
    (registerMatch h im f).2 = .ok Undefined ∧
      (registerMatch h im f).1.MatchCallbacks.lookup name =
        some
          { initFn := some c1, joinAttemptFn := some c2, joinFn := some c3,
            leaveFn := some c4, loopFn := some c5, terminateFn := some c6 } ∧
      (registerMatch h im f).1.MatchCallbacks.entries.keys.count name = 1 ∧
      ∀ other, other ≠ name →
        (registerMatch h im f).1.MatchCallbacks.lookup other = im.MatchCallbacks.lookup other := by
  have hfirst : firstRoleError m = none := by
    simp [firstRoleError, matchRoles, roleError, h1, h2, h3, h4, h5, h6, GoValue.callable]
  have hbundle : bundleOf m =
      { initFn := some c1, joinAttemptFn := some c2, joinFn := some c3,
        leaveFn := some c4, loopFn := some c5, terminateFn := some c6 } := by
    simp [bundleOf, h1, h2, h3, h4, h5, h6, GoValue.callable]
  have hrun : registerMatch h im f =
      ({ im with MatchCallbacks := im.MatchCallbacks.insert name (bundleOf m) },
        .ok Undefined) := by
    rw [registerMatch_eq, hname]
    simp only [assembleMatch, hobj, hfirst]
  rw [hrun, hbundle]
  refine ⟨rfl, Finmap.lookup_insert _, ?_, ?_⟩
  · apply Multiset.count_eq_one_of_mem (Finmap.insert name _ im.MatchCallbacks).nodupKeys.nodup_keys
    exact Finmap.mem_def.mp (Finmap.mem_insert.mpr (Or.inl rfl))
  · intro other hother
    exact Finmap.lookup_insert_of_ne _ hother

/-- C4 at a concrete input: registering the six handlers under `"Arena"` on an empty
registry stores them under `"Arena"` and leaves `"arena"` unbound. -/
theorem registerMatch_stores_bundle_witness :
    (registerMatch sampleHost NewRuntimeJavascriptInitModule
        ⟨[.string "Arena", sampleHandlers]⟩).1.MatchCallbacks.lookup "Arena" =
        some
          { initFn := some 1, joinAttemptFn := some 2, joinFn := some 3,
            leaveFn := some 4, loopFn := some 5, terminateFn := some 6 } ∧
      (registerMatch sampleHost NewRuntimeJavascriptInitModule
        ⟨[.string "Arena", sampleHandlers]⟩).1.MatchCallbacks.lookup "arena" = none :=
  ⟨(registerMatch_stores_bundle sampleHost NewRuntimeJavascriptInitModule
      ⟨[.string "Arena", sampleHandlers]⟩ "Arena"
      [("match_init", .func 1), ("match_join_attempt", .func 2), ("match_join", .func 3),
        ("match_leave", .func 4), ("match_loop", .func 5), ("match_terminate", .func 6)]
      1 2 3 4 5 6 rfl rfl rfl rfl rfl rfl rfl rfl).2.1,
    ((registerMatch_stores_bundle sampleHost NewRuntimeJavascriptInitModule
      ⟨[.string "Arena", sampleHandlers]⟩ "Arena"
      [("match_init", .func 1), ("match_join_attempt", .func 2), ("match_join", .func 3),
        ("match_leave", .func 4), ("match_loop", .func 5), ("match_terminate", .func 6)]
      1 2 3 4 5 6 rfl rfl rfl rfl rfl rfl rfl rfl).2.2.2 "arena" (by decide)).trans rfl⟩

/-- C5: for an accepted match-type name and a handler object that exports to the
mapping `m`, `registerMatch` raises exactly when one of the six roles is absent
from `m` or bound to a value that is not callable; its result is the complaint of
the specification about the first such role in the fixed order, "role not found"
or "role value not a valid function", and success when there is none. The first
such role is one that fails its check while all roles before it pass. -/
theorem registerMatch_role_errors (h : Host) (im : RuntimeJavascriptInitModule)
    (f : FunctionCall) (name : String) (m : List (String × GoValue))
    (hname : h.getJsString (f.Argument 0) = .ok name)
    (hobj : (f.Argument 1).Export = .map m) :
    ((registerMatch h im f).raised = true ↔
      ∃ role ∈ matchRoles,
        m.lookup role = none ∨ ∃ v, m.lookup role = some v ∧ ∀ c, v ≠ .func c) ∧
    (registerMatch h im f).2 =
      (match firstRoleError m with
      | some msg => .error msg
      | none => .ok Undefined) ∧
    (∀ msg, firstRoleError m = some msg ↔
      ∃ before role after, matchRoles = before ++ role :: after ∧
        (∀ r ∈ before, roleError m r = none) ∧
        ((m.lookup role = none ∧ msg = role ++ " not found") ∨
          ((∃ v, m.lookup role = some v ∧ ∀ c, v ≠ .func c) ∧
            msg = role ++ " value not a valid function"))) := by
  have hrun : registerMatch h im f =
      (match firstRoleError m with
      | some msg => (im, .error msg)
      | none =>
        ({ im with MatchCallbacks := im.MatchCallbacks.insert name (bundleOf m) },
          .ok Undefined)) := by
    rw [registerMatch_eq, hname]
    simp only [assembleMatch, hobj]
  have hex : (firstRoleError m).isSome = true ↔
      ∃ role ∈ matchRoles,
        m.lookup role = none ∨ ∃ v, m.lookup role = some v ∧ ∀ c, v ≠ .func c := by
    rw [Option.isSome_iff_ne_none, Ne, firstRoleError, List.findSome?_eq_none_iff]
    push_neg
    constructor
    · rintro ⟨role, hmem, hr⟩
      exact ⟨role, hmem, (roleError_isSome_iff m role).mp (Option.isSome_iff_ne_none.mpr hr)⟩
    · rintro ⟨role, hmem, hbad⟩
      exact ⟨role, hmem, Option.isSome_iff_ne_none.mp ((roleError_isSome_iff m role).mpr hbad)⟩
  refine ⟨?_, ?_, ?_⟩
  · rw [← hex, hrun]
    cases firstRoleError m <;> simp [Outcome.raised]
  · rw [hrun]
    cases firstRoleError m <;> rfl
  · intro msg
    unfold firstRoleError
    rw [List.findSome?_eq_some_iff]
    constructor
    · rintro ⟨before, role, after, hsplit, hrole, hbefore⟩
      refine ⟨before, role, after, hsplit, hbefore, ?_⟩
      unfold roleError at hrole
      cases hl : m.lookup role with
      | none =>
        rw [hl] at hrole
        exact Or.inl ⟨rfl, (Option.some.inj hrole).symm⟩
      | some v =>
        rw [hl] at hrole
        cases v <;> simp [GoValue.callable] at hrole <;>
          exact Or.inr ⟨⟨_, rfl, by simp⟩, hrole.symm⟩
    · rintro ⟨before, role, after, hsplit, hbefore, hrole⟩
      refine ⟨before, role, after, hsplit, ?_, hbefore⟩
      unfold roleError
      rcases hrole with ⟨hl, rfl⟩ | ⟨⟨v, hl, hv⟩, rfl⟩
      · rw [hl]
      · rw [hl]
        cases v <;> simp [GoValue.callable] at hv ⊢

/-- C5 at a concrete input: a handler object without `match_terminate` is refused
with the complaint that names it. -/
theorem registerMatch_role_errors_witness :
    (registerMatch sampleHost NewRuntimeJavascriptInitModule
      ⟨[.string "arena", sampleHandlersNoTerminate]⟩).2 = .error "match_terminate not found" :=
  (registerMatch_role_errors sampleHost NewRuntimeJavascriptInitModule
    ⟨[.string "arena", sampleHandlersNoTerminate]⟩ "arena"
    [("match_init", .func 1), ("match_join_attempt", .func 2), ("match_join", .func 3),
      ("match_leave", .func 4), ("match_loop", .func 5)] rfl rfl).2.1

/-! ## All ten entry points -/

/-- A binding found by lookup is one of the bindings of the list. -/
theorem mem_of_lookup_eq_some {β : Type} (l : List (String × β)) (a : String) (b : β)
    (hl : l.lookup a = some b) : (a, b) ∈ l := by
  induction l with
  | nil => simp at hl
  | cons x t ih =>
    obtain ⟨k, v⟩ := x
    rw [List.lookup_cons] at hl
    by_cases hk : a = k
    · subst hk
      simp at hl
      simp [hl]
    · have : (a == k) = false := by simpa using hk
      rw [this] at hl
      exact List.mem_cons_of_mem _ (ih hl)

/-- What a call to any of the ten entry points does: it writes one handler with
`registerCallbackFn` and announces it, or it writes one complete bundle into the
match-bundle map, or it raises and leaves the module as it was. -/
theorem entry_cases (h : Host) (e : String × EntryFn) (hmem : e ∈ mappings h)
    (im : RuntimeJavascriptInitModule) (f : FunctionCall) :
    (∃ mode key c,
        e.2 im f = (announceCallbackFn (registerCallbackFn im mode key c) mode key,
          .ok Undefined)) ∨
      (∃ n b, b.complete = true ∧
        e.2 im f = ({ im with MatchCallbacks := im.MatchCallbacks.insert n b }, .ok Undefined)) ∨
      (∃ msg, e.2 im f = (im, .error msg)) := by
  have named : ∀ mode keyOf,
      (∃ mode' key c,
        registerNamed mode keyOf im f =
          (announceCallbackFn (registerCallbackFn im mode' key c) mode' key, .ok Undefined)) ∨
      (∃ n b, b.complete = true ∧
        registerNamed mode keyOf im f =
          ({ im with MatchCallbacks := im.MatchCallbacks.insert n b }, .ok Undefined)) ∨
      (∃ msg, registerNamed mode keyOf im f = (im, .error msg)) := by
    intro mode keyOf
    rcases registerNamed_cases mode keyOf im f with
      ⟨n, c, -, -, -, heq⟩ | ⟨-, heq⟩ | ⟨-, -, heq⟩
    · exact Or.inl ⟨mode, keyOf n, c, heq⟩
    · exact Or.inr (Or.inr ⟨_, heq⟩)
    · exact Or.inr (Or.inr ⟨_, heq⟩)
  have single : ∀ mode,
      (∃ mode' key c,
        registerSingleton mode im f =
          (announceCallbackFn (registerCallbackFn im mode' key c) mode' key, .ok Undefined)) ∨
      (∃ n b, b.complete = true ∧
        registerSingleton mode im f =
          ({ im with MatchCallbacks := im.MatchCallbacks.insert n b }, .ok Undefined)) ∨
      (∃ msg, registerSingleton mode im f = (im, .error msg)) := by
    intro mode
    rcases registerSingleton_cases mode im f with ⟨c, -, heq⟩ | ⟨-, heq⟩
    · exact Or.inl ⟨mode, "", c, heq⟩
    · exact Or.inr (Or.inr ⟨_, heq⟩)
  simp only [mappings, List.mem_cons, List.mem_singleton, List.not_mem_nil, or_false] at hmem
  rcases hmem with rfl | rfl | rfl | rfl | rfl | rfl | rfl | rfl | rfl | rfl
  · simp only [registerRpc_eq]; exact named _ _
  · simp only [registerReqBefore_eq]; exact named _ _
  · simp only [registerReqAfter_eq]; exact named _ _
  · simp only [registerRTBefore_eq]; exact named _ _
  · simp only [registerRTAfter_eq]; exact named _ _
  · simp only [registerMatchmakerMatched_eq]; exact single _
  · simp only [registerTournamentEnd_eq]; exact single _
  · simp only [registerTournamentReset_eq]; exact single _
  · simp only [registerLeaderboardReset_eq]; exact single _
  · simp only [registerMatch_eq]
    cases h.getJsString (f.Argument 0) with
    | error e => exact Or.inr (Or.inr ⟨e, rfl⟩)
    | ok n =>
      rcases assembleMatch_cases n (f.Argument 1) im f with ⟨b, hb, heq⟩ | ⟨msg, heq⟩
      · exact Or.inr (Or.inl ⟨n, b, hb, heq⟩)
      · exact Or.inr (Or.inr ⟨msg, heq⟩)

/-- The same three cases, for an entry point given with its name. -/
theorem entry_cases_of_mem (h : Host) (name : String) (fn : EntryFn)
    (hmem : (name, fn) ∈ mappings h) (im : RuntimeJavascriptInitModule) (f : FunctionCall) :
    (∃ mode key c,
        fn im f = (announceCallbackFn (registerCallbackFn im mode key c) mode key,
          .ok Undefined)) ∨
      (∃ n b, b.complete = true ∧
        fn im f = ({ im with MatchCallbacks := im.MatchCallbacks.insert n b }, .ok Undefined)) ∨
      (∃ msg, fn im f = (im, .error msg)) :=
  entry_cases h (name, fn) hmem im f

/-- One call from script keeps every stored bundle complete. -/
theorem invoke_keeps_complete (h : Host) (im : RuntimeJavascriptInitModule) (name : String)
    (f : FunctionCall)
    (inv : ∀ n b, im.MatchCallbacks.lookup n = some b → b.complete = true) :
    ∀ n b, (invoke h im name f).1.MatchCallbacks.lookup n = some b → b.complete = true := by
  unfold invoke
  cases hl : (mappings h).lookup name with
  | none => exact inv
  | some fn =>
    dsimp only
    rcases entry_cases_of_mem h name fn (mem_of_lookup_eq_some _ _ _ hl) im f with
      ⟨mode, key, c, heq⟩ | ⟨k, bundle, hb, heq⟩ | ⟨msg, heq⟩
    · rw [heq]
      cases mode <;> exact inv
    · rw [heq]
      intro n b hlook
      by_cases hn : n = k
      · subst hn
        rw [Finmap.lookup_insert] at hlook
        exact (Option.some.inj hlook) ▸ hb
      · rw [Finmap.lookup_insert_of_ne _ hn] at hlook
        exact inv n b hlook
    · rw [heq]
      exact inv

/-- A sequence of calls from script keeps every stored bundle complete. -/
theorem foldl_keeps_complete (h : Host) (calls : List (String × FunctionCall)) :
    ∀ im : RuntimeJavascriptInitModule,
      (∀ n b, im.MatchCallbacks.lookup n = some b → b.complete = true) →
      ∀ n b, (calls.foldl (fun im c => (invoke h im c.1 c.2).1) im).MatchCallbacks.lookup n
        = some b → b.complete = true := by
  induction calls with
  | nil => intro im inv; exact inv
  | cons c rest ih =>
    intro im inv
    exact ih _ (invoke_keeps_complete h im c.1 c.2 inv)

/-- C6: in every state reached from the freshly constructed module by a finite
sequence of calls to the bound entry points, with any arguments and whether the
calls succeed or raise, every bundle in the match-bundle map has all six roles
set to a callable. -/
theorem match_bundles_always_complete (h : Host) (calls : List (String × FunctionCall))
    (n : String) (b : jsMatchHandlers)
    (hb : (run h calls).MatchCallbacks.lookup n = some b) :
    b.initFn.isSome = true ∧ b.joinAttemptFn.isSome = true ∧ b.joinFn.isSome = true ∧
      b.leaveFn.isSome = true ∧ b.loopFn.isSome = true ∧ b.terminateFn.isSome = true := by
  have hc : b.complete = true :=
    foldl_keeps_complete h calls NewRuntimeJavascriptInitModule
      (by intro n b hl; simp [NewRuntimeJavascriptInitModule, Finmap.lookup_empty] at hl) n b hb
  simpa [jsMatchHandlers.complete, and_assoc] using hc

/-- C6 at a concrete input: after a refused and an accepted registration of `"arena"`
the bundle stored under it has its terminate role set. -/
theorem match_bundles_always_complete_witness :
    (run sampleHost
        [("registerMatch", ⟨[.string "arena", sampleHandlersNoTerminate]⟩),
          ("registerRpc", ⟨[.string "Foo", .function 7]⟩),
          ("registerMatch", ⟨[.string "arena", sampleHandlers]⟩)]).MatchCallbacks.lookup "arena"
        = some ⟨some 1, some 2, some 3, some 4, some 5, some 6⟩ ∧
      (jsMatchHandlers.mk (some 1) (some 2) (some 3) (some 4) (some 5)
        (some 6)).terminateFn.isSome = true :=
  ⟨by decide,
    (match_bundles_always_complete sampleHost
      [("registerMatch", ⟨[.string "arena", sampleHandlersNoTerminate]⟩),
        ("registerRpc", ⟨[.string "Foo", .function 7]⟩),
        ("registerMatch", ⟨[.string "arena", sampleHandlers]⟩)]
      "arena" ⟨some 1, some 2, some 3, some 4, some 5, some 6⟩ (by decide)).2.2.2.2.2⟩

/-- C7: a call to any of the ten entry points that raises leaves the module exactly
as it was: the Rpc, Before and After maps, the four singleton slots and the
match-bundle map are unchanged, and so is the announcement log. -/
theorem raising_call_changes_nothing (h : Host) (name : String) (fn : EntryFn)
    (hmem : (name, fn) ∈ mappings h) (im : RuntimeJavascriptInitModule) (f : FunctionCall)
    (hfail : (fn im f).raised = true) :
    (fn im f).1 = im := by
  rcases entry_cases_of_mem h name fn hmem im f with
    ⟨mode, key, c, heq⟩ | ⟨k, bundle, hb, heq⟩ | ⟨msg, heq⟩
  · rw [heq] at hfail
    simp [Outcome.raised] at hfail
  · rw [heq] at hfail
    simp [Outcome.raised] at hfail
  · rw [heq]

/-- C7 at a concrete input: `registerRpc("foo", 42)` on a registry that already binds
`"foo"` raises and the earlier handler is still there. -/
theorem raising_call_changes_nothing_witness :
    (registerRpc sampleHost
      (registerRpc sampleHost NewRuntimeJavascriptInitModule ⟨[.string "foo", .function 7]⟩).1
      ⟨[.string "foo", .number 42]⟩).1.Callbacks.Rpc.lookup "foo" = some 7 :=
  (congrArg (fun im => im.Callbacks.Rpc.lookup "foo")
    (raising_call_changes_nothing sampleHost "registerRpc" (registerRpc sampleHost)
      (List.mem_cons_self _ _)
      (registerRpc sampleHost NewRuntimeJavascriptInitModule ⟨[.string "foo", .function 7]⟩).1
      ⟨[.string "foo", .number 42]⟩ (by decide))).trans (by decide)

/-! ## Announcements and singleton slots -/

/-- C8: with the announcement callback as a log whose entries hold the category, the
key and the registry the callback finds. A call to one of the five name-keyed
entry points that returns normally had a string name and a callable, and its
result is the announcement of its category and computed key made on the module
in which the handler is already stored: the log grows by exactly one entry, with
that category and key, and the registry this entry records is the one with the
handler stored, so the callback finds the handler under the key when it runs;
the handler is there afterwards as well. The same holds for the four singleton
entry points with the empty key. A call to any of the ten entry points that
raises appends nothing, and a call to `registerMatch` appends nothing either way. -/
theorem announcement_log (h : Host) (im : RuntimeJavascriptInitModule) (f : FunctionCall) :
    (∀ e ∈ [(registerRpc h, RuntimeExecutionMode.RPC, h.ToLower),
        (registerReqBefore h, .Before, fun n => h.ToLower (h.API_PREFIX ++ n)),
        (registerReqAfter h, .After, fun n => h.ToLower (h.API_PREFIX ++ n)),
        (registerRTBefore h, .Before, fun n => h.ToLower (h.RTAPI_PREFIX ++ n)),
        (registerRTAfter h, .After, fun n => h.ToLower (h.RTAPI_PREFIX ++ n))],
      (e.1 im f).raised = false →
      ∃ name fn, f.Argument 0 = .string name ∧ f.Argument 1 = .function fn ∧
        stored (registerCallbackFn im e.2.1 (e.2.2 name) fn).Callbacks e.2.1 (e.2.2 name)
          = some fn ∧
        (registerCallbackFn im e.2.1 (e.2.2 name) fn).announced = im.announced ∧
        (e.1 im f).1 =
          announceCallbackFn (registerCallbackFn im e.2.1 (e.2.2 name) fn) e.2.1 (e.2.2 name) ∧
        (e.1 im f).1.announced = im.announced ++
          [⟨e.2.1, e.2.2 name, (registerCallbackFn im e.2.1 (e.2.2 name) fn).Callbacks⟩] ∧
        stored (e.1 im f).1.Callbacks e.2.1 (e.2.2 name) = some fn) ∧
    (∀ e ∈ [(registerMatchmakerMatched h, RuntimeExecutionMode.Matchmaker),
        (registerTournamentEnd h, .TournamentEnd),
        (registerTournamentReset h, .TournamentReset),
        (registerLeaderboardReset h, .LeaderboardReset)],
      (e.1 im f).raised = false →
      ∃ fn, f.Argument 1 = .function fn ∧
        stored (registerCallbackFn im e.2 "" fn).Callbacks e.2 "" = some fn ∧
        (registerCallbackFn im e.2 "" fn).announced = im.announced ∧
        (e.1 im f).1 = announceCallbackFn (registerCallbackFn im e.2 "" fn) e.2 "" ∧
        (e.1 im f).1.announced = im.announced ++
          [⟨e.2, "", (registerCallbackFn im e.2 "" fn).Callbacks⟩] ∧
        stored (e.1 im f).1.Callbacks e.2 "" = some fn) ∧
    (∀ e ∈ mappings h, (e.2 im f).raised = true → (e.2 im f).1.announced = im.announced) ∧
    (registerMatch h im f).1.announced = im.announced := by
  have named : ∀ mode keyOf, (registerNamed mode keyOf im f).raised = false →
      ∃ name fn, f.Argument 0 = .string name ∧ f.Argument 1 = .function fn ∧
        stored (registerCallbackFn im mode (keyOf name) fn).Callbacks mode (keyOf name)
          = some fn ∧
        (registerCallbackFn im mode (keyOf name) fn).announced = im.announced ∧
        (registerNamed mode keyOf im f).1 =
          announceCallbackFn (registerCallbackFn im mode (keyOf name) fn) mode (keyOf name) ∧
        (registerNamed mode keyOf im f).1.announced = im.announced ++
          [⟨mode, keyOf name, (registerCallbackFn im mode (keyOf name) fn).Callbacks⟩] ∧
        stored (registerNamed mode keyOf im f).1.Callbacks mode (keyOf name) = some fn := by
    intro mode keyOf hok
    rcases registerNamed_cases mode keyOf im f with
      ⟨name, fn, h0, -, h1, heq⟩ | ⟨-, heq⟩ | ⟨-, -, heq⟩
    · refine ⟨name, fn, h0, h1, stored_registerCallbackFn _ _ _ _, ?_, ?_, ?_, ?_⟩
      · cases mode <;> rfl
      · rw [heq]
      · rw [heq]
        cases mode <;> rfl
      · rw [heq]
        exact stored_registerCallbackFn _ _ _ _
    · rw [heq] at hok
      simp [Outcome.raised] at hok
    · rw [heq] at hok
      simp [Outcome.raised] at hok
  have single : ∀ mode, (registerSingleton mode im f).raised = false →
      ∃ fn, f.Argument 1 = .function fn ∧
        stored (registerCallbackFn im mode "" fn).Callbacks mode "" = some fn ∧
        (registerCallbackFn im mode "" fn).announced = im.announced ∧
        (registerSingleton mode im f).1 =
          announceCallbackFn (registerCallbackFn im mode "" fn) mode "" ∧
        (registerSingleton mode im f).1.announced = im.announced ++
          [⟨mode, "", (registerCallbackFn im mode "" fn).Callbacks⟩] ∧
        stored (registerSingleton mode im f).1.Callbacks mode "" = some fn := by
    intro mode hok
    rcases registerSingleton_cases mode im f with ⟨fn, h1, heq⟩ | ⟨-, heq⟩
    · refine ⟨fn, h1, stored_registerCallbackFn _ _ _ _, ?_, ?_, ?_, ?_⟩
      · cases mode <;> rfl
      · rw [heq]
      · rw [heq]
        cases mode <;> rfl
      · rw [heq]
        exact stored_registerCallbackFn _ _ _ _
    · rw [heq] at hok
      simp [Outcome.raised] at hok
  refine ⟨?_, ?_, ?_, ?_⟩
  · intro e he
    simp only [List.mem_cons, List.mem_singleton, List.not_mem_nil, or_false] at he
    rcases he with rfl | rfl | rfl | rfl | rfl
    · simp only [registerRpc_eq]; exact named _ _
    · simp only [registerReqBefore_eq]; exact named _ _
    · simp only [registerReqAfter_eq]; exact named _ _
    · simp only [registerRTBefore_eq]; exact named _ _
    · simp only [registerRTAfter_eq]; exact named _ _
  · intro e he
    simp only [List.mem_cons, List.mem_singleton, List.not_mem_nil, or_false] at he
    rcases he with rfl | rfl | rfl | rfl
    · simp only [registerMatchmakerMatched_eq]; exact single _
    · simp only [registerTournamentEnd_eq]; exact single _
    · simp only [registerTournamentReset_eq]; exact single _
    · simp only [registerLeaderboardReset_eq]; exact single _
  · intro e he hfail
    rcases entry_cases h e he im f with
      ⟨mode, key, c, heq⟩ | ⟨k, bundle, hb, heq⟩ | ⟨msg, heq⟩
    · rw [heq] at hfail
      simp [Outcome.raised] at hfail
    · rw [heq] at hfail
      simp [Outcome.raised] at hfail
    · rw [heq]
  · rw [registerMatch_eq]
    cases h.getJsString (f.Argument 0) with
    | error e => rfl
    | ok n =>
      rcases assembleMatch_cases n (f.Argument 1) im f with ⟨b, hb, heq⟩ | ⟨msg, heq⟩
      · simp only [heq]
      · simp only [heq]

/-- C8 at a concrete input: on an empty registry `registerReqBefore("Foo", fn)` logs one
announcement, of the Before category with the lowercased, marked key, and the
registry it records already binds that key to the handler. -/
theorem announcement_log_witness :
    (registerReqBefore sampleHost NewRuntimeJavascriptInitModule
        ⟨[.string "Foo", .function 7]⟩).1.announced.map
        (fun a => (a.mode, a.key, a.registry.Before.lookup a.key)) =
      [(.Before, "/nakama.api.nakama/foo", some 7)] := by
  obtain ⟨name, fn, h0, h1, -, -, -, hlog, -⟩ :=
    (announcement_log sampleHost NewRuntimeJavascriptInitModule
      ⟨[.string "Foo", .function 7]⟩).1
      (registerReqBefore sampleHost, .Before,
        fun n => sampleHost.ToLower (sampleHost.API_PREFIX ++ n))
      (List.mem_cons_of_mem _ (List.mem_cons_self _ _)) (by decide)
  have hname : name = "Foo" := by
    simp only [argument_zero, JsValue.string.injEq] at h0
    exact h0.symm
  have hfn : fn = 7 := by
    simp only [argument_one, JsValue.function.injEq] at h1
    exact h1.symm
  subst hname
  subst hfn
  rw [hlog]
  decide

/-- The order of storing and announcing shows in the log: on an empty registry,
announcing the Rpc key `"foo"` before storing its handler records a registry
without the handler, and the module that results is not the one that storing
first and announcing afterwards leaves. -/
theorem announcing_first_shows_in_log :
    (registerCallbackFn (announceCallbackFn NewRuntimeJavascriptInitModule .RPC "foo")
        .RPC "foo" 7).announced.map (fun a => a.registry.Rpc.lookup a.key) = [none] ∧
      (announceCallbackFn (registerCallbackFn NewRuntimeJavascriptInitModule .RPC "foo" 7)
        .RPC "foo").announced.map (fun a => a.registry.Rpc.lookup a.key) = [some 7] ∧
      registerCallbackFn (announceCallbackFn NewRuntimeJavascriptInitModule .RPC "foo")
          .RPC "foo" 7 ≠
        announceCallbackFn (registerCallbackFn NewRuntimeJavascriptInitModule .RPC "foo" 7)
          .RPC "foo" := by
  decide

/-- The result of a singleton registration whose argument 1 is a function. -/
theorem registerSingleton_apply (mode : RuntimeExecutionMode)
    (im : RuntimeJavascriptInitModule) (f : FunctionCall) (fn : Callable)
    (h1 : f.Argument 1 = .function fn) :
    registerSingleton mode im f =
      (announceCallbackFn (registerCallbackFn im mode "" fn) mode "", .ok Undefined) := by
  simp [registerSingleton, validateHandler, h1]

/-- C9: for each of the four singleton categories, a registration that returns
normally was given a callable and leaves the slot of its category holding exactly
that callable; a registration given a callable always returns normally; so after
two registrations with `fn1` and then `fn2` the slot holds `fn2`, and no longer
`fn1` when the two differ. -/
theorem singleton_slot_holds_last (h : Host) (im : RuntimeJavascriptInitModule) :
    ∀ e ∈ [(registerMatchmakerMatched h, RuntimeJavascriptCallbacks.Matchmaker),
        (registerTournamentEnd h, RuntimeJavascriptCallbacks.TournamentEnd),
        (registerTournamentReset h, RuntimeJavascriptCallbacks.TournamentReset),
        (registerLeaderboardReset h, RuntimeJavascriptCallbacks.LeaderboardReset)],
      (∀ f, (e.1 im f).raised = false →
        ∃ fn, f.Argument 1 = .function fn ∧ e.2 (e.1 im f).1.Callbacks = some fn) ∧
      (∀ f fn, f.Argument 1 = .function fn →
        (e.1 im f).2 = .ok Undefined ∧ e.2 (e.1 im f).1.Callbacks = some fn) ∧
      (∀ f1 f2 fn1 fn2, f1.Argument 1 = .function fn1 → f2.Argument 1 = .function fn2 →
        e.2 (e.1 (e.1 im f1).1 f2).1.Callbacks = some fn2 ∧
        (fn1 ≠ fn2 → e.2 (e.1 (e.1 im f1).1 f2).1.Callbacks ≠ some fn1)) := by
  have slot : ∀ (mode : RuntimeExecutionMode)
      (proj : RuntimeJavascriptCallbacks → Option Callable),
      (∀ (im0 : RuntimeJavascriptInitModule) (c : Callable),
        proj (announceCallbackFn (registerCallbackFn im0 mode "" c) mode "").Callbacks
          = some c) →
      (∀ f, (registerSingleton mode im f).raised = false →
        ∃ fn, f.Argument 1 = .function fn ∧
          proj (registerSingleton mode im f).1.Callbacks = some fn) ∧
      (∀ f fn, f.Argument 1 = .function fn →
        (registerSingleton mode im f).2 = .ok Undefined ∧
          proj (registerSingleton mode im f).1.Callbacks = some fn) ∧
      (∀ f1 f2 fn1 fn2, f1.Argument 1 = .function fn1 → f2.Argument 1 = .function fn2 →
        proj (registerSingleton mode (registerSingleton mode im f1).1 f2).1.Callbacks
          = some fn2 ∧
        (fn1 ≠ fn2 →
          proj (registerSingleton mode (registerSingleton mode im f1).1 f2).1.Callbacks
            ≠ some fn1)) := by
    intro mode proj hproj
    refine ⟨?_, ?_, ?_⟩
    · intro f hok
      rcases registerSingleton_cases mode im f with ⟨fn, h1, heq⟩ | ⟨-, heq⟩
      · exact ⟨fn, h1, by rw [heq]; exact hproj _ _⟩
      · rw [heq] at hok
        simp [Outcome.raised] at hok
    · intro f fn h1
      rw [registerSingleton_apply mode im f fn h1]
      exact ⟨rfl, hproj _ _⟩
    · intro f1 f2 fn1 fn2 h1 h2
      rw [registerSingleton_apply mode _ f2 fn2 h2]
      refine ⟨hproj _ _, ?_⟩
      intro hne hl
      rw [hproj] at hl
      exact hne (Option.some.inj hl).symm
  intro e he
  simp only [List.mem_cons, List.mem_singleton, List.not_mem_nil, or_false] at he
  rcases he with rfl | rfl | rfl | rfl
  · simp only [registerMatchmakerMatched_eq]
    exact slot _ _ (fun _ _ => rfl)
  · simp only [registerTournamentEnd_eq]
    exact slot _ _ (fun _ _ => rfl)
  · simp only [registerTournamentReset_eq]
    exact slot _ _ (fun _ _ => rfl)
  · simp only [registerLeaderboardReset_eq]
    exact slot _ _ (fun _ _ => rfl)

/-- C9 at a concrete input: after two registrations of a tournament-end handler, 7
and then 8, the slot holds 8. -/
theorem singleton_slot_holds_last_witness :
    (registerTournamentEnd sampleHost
      (registerTournamentEnd sampleHost NewRuntimeJavascriptInitModule
        ⟨[.null, .function 7]⟩).1 ⟨[.null, .function 8]⟩).1.Callbacks.TournamentEnd = some 8 :=
  ((singleton_slot_holds_last sampleHost NewRuntimeJavascriptInitModule
    (registerTournamentEnd sampleHost, RuntimeJavascriptCallbacks.TournamentEnd)
    (List.mem_cons_of_mem _ (List.mem_cons_self _ _))).2.2
    ⟨[.null, .function 7]⟩ ⟨[.null, .function 8]⟩ 7 8 rfl rfl).1

/-! ## A refused bundle -/

/-- C10 fails as stated: once `"arena"` has been registered with all six handlers, a
second `registerMatch("arena", obj)` whose object lacks `match_terminate` raises,
and the match-bundle map still has the earlier entry under `"arena"`. -/
theorem refused_bundle_keeps_earlier_entry :
    (registerMatch sampleHost
        (registerMatch sampleHost NewRuntimeJavascriptInitModule
          ⟨[.string "arena", sampleHandlers]⟩).1
        ⟨[.string "arena", sampleHandlersNoTerminate]⟩).2
        = .error "match_terminate not found" ∧
      (registerMatch sampleHost
        (registerMatch sampleHost NewRuntimeJavascriptInitModule
          ⟨[.string "arena", sampleHandlers]⟩).1
        ⟨[.string "arena", sampleHandlersNoTerminate]⟩).1.MatchCallbacks.lookup "arena"
        = some ⟨some 1, some 2, some 3, some 4, some 5, some 6⟩ :=
  ⟨rfl, by decide⟩

/-- C10 as amended: a call to `registerMatch` that raises leaves the match-bundle map
as it was; so under every name, the accepted name of the call included, the map
has afterwards the entry it had before, and none if it had none. -/
theorem refused_bundle_leaves_map (h : Host) (im : RuntimeJavascriptInitModule)
    (f : FunctionCall) (hfail : (registerMatch h im f).raised = true) :
    (registerMatch h im f).1.MatchCallbacks = im.MatchCallbacks ∧
      (∀ name, (registerMatch h im f).1.MatchCallbacks.lookup name
        = im.MatchCallbacks.lookup name) ∧
      ∀ name, h.getJsString (f.Argument 0) = .ok name →
        im.MatchCallbacks.lookup name = none →
        (registerMatch h im f).1.MatchCallbacks.lookup name = none := by
  have hsame : (registerMatch h im f).1 = im := by
    rcases entry_cases_of_mem h "registerMatch" (registerMatch h) (by simp [mappings]) im f with
      ⟨mode, key, c, heq⟩ | ⟨k, bundle, hb, heq⟩ | ⟨msg, heq⟩
    · rw [heq] at hfail
      simp [Outcome.raised] at hfail
    · rw [heq] at hfail
      simp [Outcome.raised] at hfail
    · rw [heq]
  rw [hsame]
  exact ⟨rfl, fun _ => rfl, fun _ _ hnone => hnone⟩

/-- C10 as amended, at a concrete input: on an empty registry, `registerMatch` with
an object that lacks `match_terminate` leaves no entry under `"arena"`. -/
theorem refused_bundle_leaves_map_witness :
    (registerMatch sampleHost NewRuntimeJavascriptInitModule
      ⟨[.string "arena", sampleHandlersNoTerminate]⟩).1.MatchCallbacks.lookup "arena" = none :=
  (refused_bundle_leaves_map sampleHost NewRuntimeJavascriptInitModule
    ⟨[.string "arena", sampleHandlersNoTerminate]⟩ (by decide)).2.2 "arena" rfl rfl

/-! ## What a call does, whatever the registry -/

/-- A name-keyed registration does the same thing on every module: it stores and
announces one handler, or it raises one error. -/
theorem registerNamed_effect (mode : RuntimeExecutionMode) (keyOf : String → String)
    (f : FunctionCall) :
    (∃ name c, name ≠ "" ∧ normalizeName (f.Argument 0) = .ok name ∧
        ∀ im, registerNamed mode keyOf im f =
          (announceCallbackFn (registerCallbackFn im mode (keyOf name) c) mode (keyOf name),
            .ok Undefined)) ∨
      (∃ msg, ∀ im, registerNamed mode keyOf im f = (im, .error msg)) := by
  cases h0 : f.Argument 0 with
  | string name =>
    by_cases hname : name = ""
    · exact Or.inr ⟨"expects a non empty string", fun im => by
        simp [registerNamed, normalizeName, h0, hname]⟩
    · cases h1 : f.Argument 1 with
      | function c =>
        exact Or.inl ⟨name, c, hname, by simp [normalizeName, hname], fun im => by
          simp [registerNamed, normalizeName, validateHandler, h0, h1, hname]⟩
      | _ =>
        exact Or.inr ⟨"expects a function", fun im => by
          simp [registerNamed, normalizeName, validateHandler, h0, h1, hname]⟩
  | _ =>
    exact Or.inr ⟨"expects a non empty string", fun im => by
      simp [registerNamed, normalizeName, h0]⟩

/-- A singleton registration does the same thing on every module. -/
theorem registerSingleton_effect (mode : RuntimeExecutionMode) (f : FunctionCall) :
    (∃ c, ∀ im, registerSingleton mode im f =
        (announceCallbackFn (registerCallbackFn im mode "" c) mode "", .ok Undefined)) ∨
      (∃ msg, ∀ im, registerSingleton mode im f = (im, .error msg)) := by
  cases h1 : f.Argument 1 with
  | function c =>
    exact Or.inl ⟨c, fun im => by simp [registerSingleton, validateHandler, h1]⟩
  | _ =>
    exact Or.inr ⟨"expects a function", fun im => by
      simp [registerSingleton, validateHandler, h1]⟩

/-- The assembler does the same thing on every module. -/
theorem assembleMatch_effect (name : String) (obj : JsValue) (f : FunctionCall) :
    (∃ b, b.complete = true ∧
        ∀ im, assembleMatch name obj im f =
          ({ im with MatchCallbacks := im.MatchCallbacks.insert name b }, .ok Undefined)) ∨
      (∃ msg, ∀ im, assembleMatch name obj im f = (im, .error msg)) := by
  unfold assembleMatch
  cases obj.Export with
  | map m =>
    dsimp only
    cases hm : firstRoleError m with
    | none => exact Or.inl ⟨bundleOf m, bundleOf_complete m hm, fun _ => rfl⟩
    | some msg => exact Or.inr ⟨msg, fun _ => rfl⟩
  | _ => exact Or.inr ⟨_, fun _ => rfl⟩

/-- What a call to any of the ten entry points does, on every module alike: it
stores and announces one handler, for a category and a key of the shape the
specification gives; or it writes one complete bundle under a match-type name; or
it raises. In the first two cases the storage written is the target of the call. -/
theorem entry_effect (h : Host) (e : String × EntryFn) (hmem : e ∈ mappings h)
    (f : FunctionCall) :
    (∃ mode key c, keyShape h mode key ∧ targetOf h e.1 f = some (.callback mode key) ∧
        ∀ im, e.2 im f =
          (announceCallbackFn (registerCallbackFn im mode key c) mode key, .ok Undefined)) ∨
      (∃ n b, b.complete = true ∧ targetOf h e.1 f = some (.bundle n) ∧
        ∀ im, e.2 im f =
          ({ im with MatchCallbacks := im.MatchCallbacks.insert n b }, .ok Undefined)) ∨
      (∃ msg, ∀ im, e.2 im f = (im, .error msg)) := by
  simp only [mappings, List.mem_cons, List.mem_singleton, List.not_mem_nil, or_false] at hmem
  rcases hmem with rfl | rfl | rfl | rfl | rfl | rfl | rfl | rfl | rfl | rfl
  · simp only [registerRpc_eq]
    rcases registerNamed_effect .RPC h.ToLower f with ⟨name, c, hne, hnorm, heq⟩ | ⟨msg, heq⟩
    · have hshape : keyShape h .RPC (h.ToLower name) := ⟨name, hne, rfl⟩
      exact Or.inl ⟨.RPC, h.ToLower name, c, hshape, by simp [targetOf, hnorm], heq⟩
    · exact Or.inr (Or.inr ⟨msg, heq⟩)
  · simp only [registerReqBefore_eq]
    rcases registerNamed_effect .Before (fun n => h.ToLower (h.API_PREFIX ++ n)) f with
      ⟨name, c, hne, hnorm, heq⟩ | ⟨msg, heq⟩
    · have hshape : keyShape h .Before (h.ToLower (h.API_PREFIX ++ name)) := ⟨name, hne, Or.inl rfl⟩
      exact Or.inl ⟨.Before, h.ToLower (h.API_PREFIX ++ name), c, hshape, by simp [targetOf, hnorm], heq⟩
    · exact Or.inr (Or.inr ⟨msg, heq⟩)
  · simp only [registerReqAfter_eq]
    rcases registerNamed_effect .After (fun n => h.ToLower (h.API_PREFIX ++ n)) f with
      ⟨name, c, hne, hnorm, heq⟩ | ⟨msg, heq⟩
    · have hshape : keyShape h .After (h.ToLower (h.API_PREFIX ++ name)) := ⟨name, hne, Or.inl rfl⟩
      exact Or.inl ⟨.After, h.ToLower (h.API_PREFIX ++ name), c, hshape, by simp [targetOf, hnorm], heq⟩
    · exact Or.inr (Or.inr ⟨msg, heq⟩)
  · simp only [registerRTBefore_eq]
    rcases registerNamed_effect .Before (fun n => h.ToLower (h.RTAPI_PREFIX ++ n)) f with
      ⟨name, c, hne, hnorm, heq⟩ | ⟨msg, heq⟩
    · have hshape : keyShape h .Before (h.ToLower (h.RTAPI_PREFIX ++ name)) := ⟨name, hne, Or.inr rfl⟩
      exact Or.inl ⟨.Before, h.ToLower (h.RTAPI_PREFIX ++ name), c, hshape, by simp [targetOf, hnorm], heq⟩
    · exact Or.inr (Or.inr ⟨msg, heq⟩)
  · simp only [registerRTAfter_eq]
    rcases registerNamed_effect .After (fun n => h.ToLower (h.RTAPI_PREFIX ++ n)) f with
      ⟨name, c, hne, hnorm, heq⟩ | ⟨msg, heq⟩
    · have hshape : keyShape h .After (h.ToLower (h.RTAPI_PREFIX ++ name)) := ⟨name, hne, Or.inr rfl⟩
      exact Or.inl ⟨.After, h.ToLower (h.RTAPI_PREFIX ++ name), c, hshape, by simp [targetOf, hnorm], heq⟩
    · exact Or.inr (Or.inr ⟨msg, heq⟩)
  · simp only [registerMatchmakerMatched_eq]
    rcases registerSingleton_effect .Matchmaker f with ⟨c, heq⟩ | ⟨msg, heq⟩
    · have hshape : keyShape h .Matchmaker "" := rfl
      exact Or.inl ⟨.Matchmaker, "", c, hshape, by simp [targetOf], heq⟩
    · exact Or.inr (Or.inr ⟨msg, heq⟩)
  · simp only [registerTournamentEnd_eq]
    rcases registerSingleton_effect .TournamentEnd f with ⟨c, heq⟩ | ⟨msg, heq⟩
    · have hshape : keyShape h .TournamentEnd "" := rfl
      exact Or.inl ⟨.TournamentEnd, "", c, hshape, by simp [targetOf], heq⟩
    · exact Or.inr (Or.inr ⟨msg, heq⟩)
  · simp only [registerTournamentReset_eq]
    rcases registerSingleton_effect .TournamentReset f with ⟨c, heq⟩ | ⟨msg, heq⟩
    · have hshape : keyShape h .TournamentReset "" := rfl
      exact Or.inl ⟨.TournamentReset, "", c, hshape, by simp [targetOf], heq⟩
    · exact Or.inr (Or.inr ⟨msg, heq⟩)
  · simp only [registerLeaderboardReset_eq]
    rcases registerSingleton_effect .LeaderboardReset f with ⟨c, heq⟩ | ⟨msg, heq⟩
    · have hshape : keyShape h .LeaderboardReset "" := rfl
      exact Or.inl ⟨.LeaderboardReset, "", c, hshape, by simp [targetOf], heq⟩
    · exact Or.inr (Or.inr ⟨msg, heq⟩)
  · simp only [registerMatch_eq]
    cases hn : h.getJsString (f.Argument 0) with
    | error err => exact Or.inr (Or.inr ⟨err, fun _ => rfl⟩)
    | ok n =>
      rcases assembleMatch_effect n (f.Argument 1) f with ⟨b, hb, heq⟩ | ⟨msg, heq⟩
      · exact Or.inr (Or.inl ⟨n, b, hb, by simp [targetOf, hn], heq⟩)
      · exact Or.inr (Or.inr ⟨msg, heq⟩)

/-! ## The arguments of `registerMatch` -/

/-- No complaint about a role reads "expects an object". -/
theorem roleError_ne_expects_object (m : List (String × GoValue)) (role : String)
    (hrole : role ∈ matchRoles) : roleError m role ≠ some "expects an object" := by
  simp only [matchRoles, List.mem_cons, List.mem_singleton, List.not_mem_nil, or_false] at hrole
  rcases hrole with rfl | rfl | rfl | rfl | rfl | rfl <;>
    (unfold roleError; split <;> [decide; (split <;> decide)])

/-- C11: for an accepted match-type name, `registerMatch` raises "expects an object"
whenever its second argument is null, undefined, or does not export to a
string-keyed mapping, and leaves the module as it was; no role of the handler
object has any part in this: the error "expects an object" is raised exactly when
the argument exports to no mapping, and an argument that does export to one is
never answered with it, whatever its roles. A number and a string export to no
mapping. -/
theorem registerMatch_expects_object (h : Host) (im : RuntimeJavascriptInitModule)
    (f : FunctionCall) (name : String)
    (hname : h.getJsString (f.Argument 0) = .ok name) :
    ((f.Argument 1 = .null ∨ f.Argument 1 = .undefined ∨
        ∀ m, (f.Argument 1).Export ≠ .map m) →
      registerMatch h im f = (im, .error "expects an object")) ∧
    ((registerMatch h im f).2 = .error "expects an object" ↔
      ∀ m, (f.Argument 1).Export ≠ .map m) ∧
    (∀ n m, (JsValue.number n).Export ≠ .map m) ∧
    (∀ s m, (JsValue.string s).Export ≠ .map m) := by
  have hno : (∀ m, (f.Argument 1).Export ≠ .map m) →
      registerMatch h im f = (im, .error "expects an object") := by
    intro hexp
    rw [registerMatch_eq, hname]
    cases hE : (f.Argument 1).Export with
    | map m => exact absurd hE (hexp m)
    | _ => simp only [assembleMatch, hE]
  refine ⟨?_, ⟨?_, fun hexp => by rw [hno hexp]⟩, ?_, ?_⟩
  · rintro (h1 | h1 | h1)
    · exact hno (by rw [h1]; intro m hm; simp [JsValue.Export] at hm)
    · exact hno (by rw [h1]; intro m hm; simp [JsValue.Export] at hm)
    · exact hno h1
  · intro herr m hE
    have hres := (registerMatch_role_errors h im f name m hname hE).2.1
    rw [hres] at herr
    cases hfirst : firstRoleError m with
    | none =>
      rw [hfirst] at herr
      simp at herr
    | some msg =>
      rw [hfirst] at herr
      simp only [Except.error.injEq] at herr
      subst herr
      obtain ⟨role, hmem, hrole⟩ := List.exists_of_findSome?_eq_some hfirst
      exact roleError_ne_expects_object m role hmem hrole
  · intro n m hm
    simp [JsValue.Export] at hm
  · intro s m hm
    simp [JsValue.Export] at hm

/-- C11 at a concrete input: `registerMatch("arena", 42)` raises "expects an object". -/
theorem registerMatch_expects_object_witness :
    registerMatch sampleHost NewRuntimeJavascriptInitModule ⟨[.string "arena", .number 42]⟩ =
      (NewRuntimeJavascriptInitModule, .error "expects an object") :=
  (registerMatch_expects_object sampleHost NewRuntimeJavascriptInitModule
    ⟨[.string "arena", .number 42]⟩ "arena" rfl).1
    (Or.inr (Or.inr (fun m hm => by simp [argument_one, JsValue.Export] at hm)))

/-- C12: with the name helper as the specification has it, `registerMatch` called
with a name that is null, undefined, not a string or the empty string raises a
type error, whatever the handler object, and leaves the module as it was: no
bundle is stored. -/
theorem registerMatch_rejects_bad_name (h : Host) (hh : h.getJsString = getJsString)
    (im : RuntimeJavascriptInitModule) (f : FunctionCall)
    (hbad : f.Argument 0 = .null ∨ f.Argument 0 = .undefined ∨
      (∀ s, f.Argument 0 ≠ .string s) ∨ f.Argument 0 = .string "") :
    (registerMatch h im f).raised = true ∧ (registerMatch h im f).1 = im ∧
      (registerMatch h im f).1.MatchCallbacks = im.MatchCallbacks := by
  have herr : ∃ msg, getJsString (f.Argument 0) = .error msg := by
    rcases hbad with h0 | h0 | h0 | h0
    · exact ⟨_, by rw [h0]; rfl⟩
    · exact ⟨_, by rw [h0]; rfl⟩
    · cases hv : f.Argument 0 with
      | string s => exact absurd hv (h0 s)
      | _ => exact ⟨_, rfl⟩
    · exact ⟨_, by rw [h0]; rfl⟩
  obtain ⟨msg, hmsg⟩ := herr
  have hrun : registerMatch h im f = (im, .error msg) := by
    rw [registerMatch_eq, hh, hmsg]
  rw [hrun]
  exact ⟨rfl, rfl, rfl⟩

/-- C12 at a concrete input: `registerMatch("", obj)` with all six handlers raises and
the match-bundle map stays empty. -/
theorem registerMatch_rejects_bad_name_witness :
    (registerMatch sampleHost NewRuntimeJavascriptInitModule
        ⟨[.string "", sampleHandlers]⟩).raised = true ∧
      (registerMatch sampleHost NewRuntimeJavascriptInitModule
        ⟨[.string "", sampleHandlers]⟩).1.MatchCallbacks = ∅ :=
  ⟨(registerMatch_rejects_bad_name sampleHost rfl NewRuntimeJavascriptInitModule
      ⟨[.string "", sampleHandlers]⟩ (Or.inr (Or.inr (Or.inr rfl)))).1,
    (registerMatch_rejects_bad_name sampleHost rfl NewRuntimeJavascriptInitModule
      ⟨[.string "", sampleHandlers]⟩ (Or.inr (Or.inr (Or.inr rfl)))).2.2⟩

/-! ## Repeating a call -/

/-- C13: for every call to any of the ten entry points, making the call twice in
succession leaves the same registry as making it once: the Rpc, Before and After
maps and the four singleton slots, and the match-bundle map. -/
theorem repeated_call_same_registry (h : Host) (name : String) (fn : EntryFn)
    (hmem : (name, fn) ∈ mappings h) (im : RuntimeJavascriptInitModule) (f : FunctionCall) :
    (fn (fn im f).1 f).1.Callbacks = (fn im f).1.Callbacks ∧
      (fn (fn im f).1 f).1.MatchCallbacks = (fn im f).1.MatchCallbacks := by
  have heff := entry_effect h (name, fn) hmem f
  dsimp only at heff
  rcases heff with ⟨mode, key, c, -, -, heq⟩ | ⟨n, b, -, -, heq⟩ | ⟨msg, heq⟩
  · simp only [heq]
    cases mode <;>
      simp [registerCallbackFn, announceCallbackFn, Finmap.insert_insert]
  · simp only [heq, Finmap.insert_insert, and_self]
  · simp only [heq, and_self]

/-- C13 at a concrete input: `registerRpc("Foo", 7)` made twice on an empty registry
leaves the Rpc map that one call leaves. -/
theorem repeated_call_same_registry_witness :
    (registerRpc sampleHost (registerRpc sampleHost NewRuntimeJavascriptInitModule
        ⟨[.string "Foo", .function 7]⟩).1 ⟨[.string "Foo", .function 7]⟩).1.Callbacks.Rpc =
      (registerRpc sampleHost NewRuntimeJavascriptInitModule
        ⟨[.string "Foo", .function 7]⟩).1.Callbacks.Rpc :=
  congrArg RuntimeJavascriptCallbacks.Rpc
    (repeated_call_same_registry sampleHost "registerRpc" (registerRpc sampleHost)
      (List.mem_cons_self _ _) NewRuntimeJavascriptInitModule
      ⟨[.string "Foo", .function 7]⟩).1

/-! ## The keys of the name-keyed maps -/

/-- A concatenation with a non-empty second part is not empty. -/
theorem append_ne_empty (a b : String) (hb : b ≠ "") : a ++ b ≠ "" := by
  intro hcon
  apply hb
  have hdata := congrArg String.data hcon
  simp only [String.data_append, List.append_eq_nil] at hdata
  exact String.ext hdata.2

/-- Under the laws of lowercasing, a key of the shape of the specification is
non-empty and in lowercase form, and behind a lowercased marker when its category
is Before or After. -/
theorem keyShape_normalized (h : Host) (laws : h.LowerLaws) (mode : RuntimeExecutionMode)
    (key : String) (hshape : keyShape h mode key)
    (hmode : mode = .RPC ∨ mode = .Before ∨ mode = .After) :
    key ≠ "" ∧ h.ToLower key = key ∧
      (mode ≠ .RPC →
        (∃ r, key = h.ToLower h.API_PREFIX ++ r) ∨ (∃ r, key = h.ToLower h.RTAPI_PREFIX ++ r))
    := by
  have pre : ∀ (p n : String), n ≠ "" →
      h.ToLower (p ++ n) ≠ "" ∧ h.ToLower (h.ToLower (p ++ n)) = h.ToLower (p ++ n) ∧
        ∃ r, h.ToLower (p ++ n) = h.ToLower p ++ r := fun p n hn =>
    ⟨laws.nonempty _ (append_ne_empty p n hn), laws.idem _, h.ToLower n, laws.append p n⟩
  rcases hmode with rfl | rfl | rfl
  · obtain ⟨n, hn, rfl⟩ := hshape
    exact ⟨laws.nonempty n hn, laws.idem n, fun hne => absurd rfl hne⟩
  · obtain ⟨n, hn, rfl | rfl⟩ := hshape
    · exact ⟨(pre _ n hn).1, (pre _ n hn).2.1, fun _ => Or.inl (pre _ n hn).2.2⟩
    · exact ⟨(pre _ n hn).1, (pre _ n hn).2.1, fun _ => Or.inr (pre _ n hn).2.2⟩
  · obtain ⟨n, hn, rfl | rfl⟩ := hshape
    · exact ⟨(pre _ n hn).1, (pre _ n hn).2.1, fun _ => Or.inl (pre _ n hn).2.2⟩
    · exact ⟨(pre _ n hn).1, (pre _ n hn).2.1, fun _ => Or.inr (pre _ n hn).2.2⟩

/-- One call from script keeps the key invariant. -/
theorem invoke_keeps_keys (h : Host) (laws : h.LowerLaws) (im : RuntimeJavascriptInitModule)
    (name : String) (f : FunctionCall) (inv : keysNormalized h im.Callbacks) :
    keysNormalized h (invoke h im name f).1.Callbacks := by
  unfold invoke
  cases hl : (mappings h).lookup name with
  | none => exact inv
  | some fn =>
    dsimp only
    have heff := entry_effect h (name, fn) (mem_of_lookup_eq_some _ _ _ hl) f
    dsimp only at heff
    rcases heff with ⟨mode, key, c, hshape, -, heq⟩ | ⟨n, b, -, -, heq⟩ | ⟨msg, heq⟩
    · rw [heq]
      obtain ⟨hrpc, hbefore, hafter⟩ := inv
      cases mode with
      | RPC =>
        obtain ⟨hne, hlow, -⟩ := keyShape_normalized h laws _ key hshape (Or.inl rfl)
        refine ⟨?_, hbefore, hafter⟩
        intro k hk
        rcases Finmap.mem_insert.mp hk with rfl | hk
        · exact ⟨hne, hlow⟩
        · exact hrpc k hk
      | Before =>
        obtain ⟨hne, hlow, hpre⟩ :=
          keyShape_normalized h laws _ key hshape (Or.inr (Or.inl rfl))
        refine ⟨hrpc, ?_, hafter⟩
        intro k hk
        rcases Finmap.mem_insert.mp hk with rfl | hk
        · exact ⟨hne, hlow, hpre (by decide)⟩
        · exact hbefore k hk
      | After =>
        obtain ⟨hne, hlow, hpre⟩ :=
          keyShape_normalized h laws _ key hshape (Or.inr (Or.inr rfl))
        refine ⟨hrpc, hbefore, ?_⟩
        intro k hk
        rcases Finmap.mem_insert.mp hk with rfl | hk
        · exact ⟨hne, hlow, hpre (by decide)⟩
        · exact hafter k hk
      | _ => exact ⟨hrpc, hbefore, hafter⟩
    · rw [heq]
      exact inv
    · rw [heq]
      exact inv

/-- A sequence of calls from script keeps the key invariant. -/
theorem foldl_keeps_keys (h : Host) (laws : h.LowerLaws)
    (calls : List (String × FunctionCall)) :
    ∀ im : RuntimeJavascriptInitModule, keysNormalized h im.Callbacks →
      keysNormalized h (calls.foldl (fun im c => (invoke h im c.1 c.2).1) im).Callbacks := by
  induction calls with
  | nil => intro im inv; exact inv
  | cons c rest ih =>
    intro im inv
    exact ih _ (invoke_keeps_keys h laws im c.1 c.2 inv)

/-- The ASCII lowercasing of a character is a fixed point of ASCII lowercasing. -/
theorem char_toLower_idem (c : Char) : c.toLower.toLower = c.toLower := by
  by_cases hc : c.toNat ≥ 65 ∧ c.toNat ≤ 90
  · have hcn : c = Char.ofNat c.toNat := (Char.ofNat_toNat c).symm
    obtain ⟨h1, h2⟩ := hc
    generalize c.toNat = n at *
    subst hcn
    interval_cases n <;> decide
  · have hfix : c.toLower = c := by
      unfold Char.toLower
      simp only [hc, if_false]
    rw [hfix, hfix]

/-- The concrete environment satisfies the laws of lowercasing. -/
theorem sampleHost_lowerLaws : sampleHost.LowerLaws where
  idem := by
    intro s
    simp [sampleHost, asciiToLower, List.map_map, Function.comp_def, char_toLower_idem]
  nonempty := by
    intro s hs hcon
    apply hs
    have hdata := congrArg String.data hcon
    simp [sampleHost, asciiToLower] at hdata
    exact String.ext hdata
  append := by
    intro a b
    apply String.ext
    simp [sampleHost, asciiToLower]

/-- C14: provided `strings.ToLower` is idempotent, keeps non-empty strings non-empty
and lowercases a concatenation part by part, in every state reached from the
freshly constructed module by a finite sequence of calls to the bound entry points
every key of the Rpc, Before and After maps is a non-empty string in lowercase
form, and every key of the Before and After maps begins with the lowercased
`API_PREFIX` or the lowercased `RTAPI_PREFIX`. -/
theorem registry_keys_normalized (h : Host) (laws : h.LowerLaws)
    (calls : List (String × FunctionCall)) :
    (∀ k ∈ (run h calls).Callbacks.Rpc, k ≠ "" ∧ h.ToLower k = k) ∧
      (∀ k ∈ (run h calls).Callbacks.Before, k ≠ "" ∧ h.ToLower k = k ∧
        ((∃ r, k = h.ToLower h.API_PREFIX ++ r) ∨
          (∃ r, k = h.ToLower h.RTAPI_PREFIX ++ r))) ∧
      (∀ k ∈ (run h calls).Callbacks.After, k ≠ "" ∧ h.ToLower k = k ∧
        ((∃ r, k = h.ToLower h.API_PREFIX ++ r) ∨
          (∃ r, k = h.ToLower h.RTAPI_PREFIX ++ r))) :=
  foldl_keeps_keys h laws calls NewRuntimeJavascriptInitModule
    ⟨fun _ hk => absurd hk (Finmap.not_mem_empty),
      fun _ hk => absurd hk (Finmap.not_mem_empty),
      fun _ hk => absurd hk (Finmap.not_mem_empty)⟩

/-- C14 at a concrete input: after `registerRpc("Foo", 7)` and `registerRTBefore("Bar", 8)`
the Before map has the key `"*rtapi.envelope_bar"`, which is non-empty and
unchanged by lowercasing. -/
theorem registry_keys_normalized_witness :
    "*rtapi.envelope_bar" ∈
        (run sampleHost
          [("registerRpc", ⟨[.string "Foo", .function 7]⟩),
            ("registerRTBefore", ⟨[.string "Bar", .function 8]⟩)]).Callbacks.Before ∧
      "*rtapi.envelope_bar" ≠ "" ∧ asciiToLower "*rtapi.envelope_bar" = "*rtapi.envelope_bar" :=
  ⟨by decide,
    ((registry_keys_normalized sampleHost sampleHost_lowerLaws
      [("registerRpc", ⟨[.string "Foo", .function 7]⟩),
        ("registerRTBefore", ⟨[.string "Bar", .function 8]⟩)]).2.1
      "*rtapi.envelope_bar" (by decide)).1,
    ((registry_keys_normalized sampleHost sampleHost_lowerLaws
      [("registerRpc", ⟨[.string "Foo", .function 7]⟩),
        ("registerRTBefore", ⟨[.string "Bar", .function 8]⟩)]).2.1
      "*rtapi.envelope_bar" (by decide)).2.1⟩

/-! ## What a registration leaves alone -/

/-- The write `registerCallbackFn` changes the registry at most at its category and key. -/
theorem registerCallbackFn_differsOnlyAt (im : RuntimeJavascriptInitModule)
    (mode : RuntimeExecutionMode) (key : String) (c : Callable) :
    (registerCallbackFn im mode key c).Callbacks.differsOnlyAt im.Callbacks mode key ∧
      (registerCallbackFn im mode key c).MatchCallbacks = im.MatchCallbacks := by
  cases mode
  case RPC => exact ⟨⟨rfl, fun k hk => Finmap.lookup_insert_of_ne _ hk⟩, rfl⟩
  case Before => exact ⟨⟨rfl, fun k hk => Finmap.lookup_insert_of_ne _ hk⟩, rfl⟩
  case After => exact ⟨⟨rfl, fun k hk => Finmap.lookup_insert_of_ne _ hk⟩, rfl⟩
  all_goals exact ⟨rfl, rfl⟩

/-- C15: a registration that returns normally changes only its own target. After a
name-keyed registration the registry differs from the one before at most in the
map of the category, and there only at the computed key: every other key of that
map, the two other maps and the four slots are as before, and so is the
match-bundle map. After a singleton registration the three maps, the three other
slots and the match-bundle map are as before. After `registerMatch` the three maps
and the four slots are as before, and so is every other match-type entry. -/
theorem registration_changes_only_target (h : Host) (im : RuntimeJavascriptInitModule)
    (f : FunctionCall) :
    (∀ e ∈ [(registerRpc h, RuntimeExecutionMode.RPC, h.ToLower),
        (registerReqBefore h, .Before, fun n => h.ToLower (h.API_PREFIX ++ n)),
        (registerReqAfter h, .After, fun n => h.ToLower (h.API_PREFIX ++ n)),
        (registerRTBefore h, .Before, fun n => h.ToLower (h.RTAPI_PREFIX ++ n)),
        (registerRTAfter h, .After, fun n => h.ToLower (h.RTAPI_PREFIX ++ n))],
      (e.1 im f).raised = false →
      ∃ name, f.Argument 0 = .string name ∧
        (e.1 im f).1.Callbacks.differsOnlyAt im.Callbacks e.2.1 (e.2.2 name) ∧
        (e.1 im f).1.MatchCallbacks = im.MatchCallbacks) ∧
    (∀ e ∈ [(registerMatchmakerMatched h, RuntimeExecutionMode.Matchmaker),
        (registerTournamentEnd h, .TournamentEnd),
        (registerTournamentReset h, .TournamentReset),
        (registerLeaderboardReset h, .LeaderboardReset)],
      (e.1 im f).raised = false →
      (e.1 im f).1.Callbacks.differsOnlyAt im.Callbacks e.2 "" ∧
        (e.1 im f).1.MatchCallbacks = im.MatchCallbacks) ∧
    ((registerMatch h im f).raised = false →
      ∃ name, h.getJsString (f.Argument 0) = .ok name ∧
        (registerMatch h im f).1.Callbacks = im.Callbacks ∧
        ∀ other, other ≠ name →
          (registerMatch h im f).1.MatchCallbacks.lookup other
            = im.MatchCallbacks.lookup other) := by
  have named : ∀ mode keyOf, (registerNamed mode keyOf im f).raised = false →
      ∃ name, f.Argument 0 = .string name ∧
        (registerNamed mode keyOf im f).1.Callbacks.differsOnlyAt im.Callbacks mode
          (keyOf name) ∧
        (registerNamed mode keyOf im f).1.MatchCallbacks = im.MatchCallbacks := by
    intro mode keyOf hok
    rcases registerNamed_cases mode keyOf im f with
      ⟨name, fn, h0, -, -, heq⟩ | ⟨-, heq⟩ | ⟨-, -, heq⟩
    · rw [heq]
      exact ⟨name, h0, registerCallbackFn_differsOnlyAt im mode (keyOf name) fn⟩
    · rw [heq] at hok
      simp [Outcome.raised] at hok
    · rw [heq] at hok
      simp [Outcome.raised] at hok
  have single : ∀ mode, (registerSingleton mode im f).raised = false →
      (registerSingleton mode im f).1.Callbacks.differsOnlyAt im.Callbacks mode "" ∧
        (registerSingleton mode im f).1.MatchCallbacks = im.MatchCallbacks := by
    intro mode hok
    rcases registerSingleton_cases mode im f with ⟨fn, -, heq⟩ | ⟨-, heq⟩
    · rw [heq]
      exact registerCallbackFn_differsOnlyAt im mode "" fn
    · rw [heq] at hok
      simp [Outcome.raised] at hok
  refine ⟨?_, ?_, ?_⟩
  · intro e he
    simp only [List.mem_cons, List.mem_singleton, List.not_mem_nil, or_false] at he
    rcases he with rfl | rfl | rfl | rfl | rfl
    · simp only [registerRpc_eq]; exact named _ _
    · simp only [registerReqBefore_eq]; exact named _ _
    · simp only [registerReqAfter_eq]; exact named _ _
    · simp only [registerRTBefore_eq]; exact named _ _
    · simp only [registerRTAfter_eq]; exact named _ _
  · intro e he
    simp only [List.mem_cons, List.mem_singleton, List.not_mem_nil, or_false] at he
    rcases he with rfl | rfl | rfl | rfl
    · simp only [registerMatchmakerMatched_eq]; exact single _
    · simp only [registerTournamentEnd_eq]; exact single _
    · simp only [registerTournamentReset_eq]; exact single _
    · simp only [registerLeaderboardReset_eq]; exact single _
  · intro hok
    rw [registerMatch_eq] at hok ⊢
    cases hn : h.getJsString (f.Argument 0) with
    | error err =>
      rw [hn] at hok
      simp [Outcome.raised] at hok
    | ok n =>
      rw [hn] at hok
      dsimp only at hok ⊢
      rcases assembleMatch_cases n (f.Argument 1) im f with ⟨b, -, heq⟩ | ⟨msg, heq⟩
      · rw [heq]
        exact ⟨n, rfl, rfl, fun other hother => Finmap.lookup_insert_of_ne _ hother⟩
      · rw [heq] at hok
        simp [Outcome.raised] at hok

/-- C15 at a concrete input: `registerReqBefore("Foo", 9)` on a registry that binds the Rpc
key `"foo"` leaves that binding as it was. -/
theorem registration_changes_only_target_witness :
    (registerReqBefore sampleHost
      (registerRpc sampleHost NewRuntimeJavascriptInitModule ⟨[.string "foo", .function 7]⟩).1
      ⟨[.string "Foo", .function 9]⟩).1.Callbacks.Rpc.lookup "foo" = some 7 := by
  obtain ⟨name, -, hdiff, -⟩ :=
    (registration_changes_only_target sampleHost
      (registerRpc sampleHost NewRuntimeJavascriptInitModule ⟨[.string "foo", .function 7]⟩).1
      ⟨[.string "Foo", .function 9]⟩).1
      (registerReqBefore sampleHost, .Before,
        fun n => sampleHost.ToLower (sampleHost.API_PREFIX ++ n))
      (List.mem_cons_of_mem _ (List.mem_cons_self _ _)) (by decide)
  rw [hdiff.1]
  decide

/-! ## Which argument decides -/

/-- C16: for each of the four singleton entry points the outcome is decided by the
second positional argument alone: the call returns normally exactly when argument 1
is callable, two calls that agree on argument 1 have the same outcome whatever
their other arguments are, and a call whose only argument is a callable raises
"expects a function" and leaves the module as it was. -/
theorem singleton_decided_by_argument_one (h : Host) (im : RuntimeJavascriptInitModule) :
    ∀ ep ∈ [registerMatchmakerMatched h, registerTournamentEnd h,
        registerTournamentReset h, registerLeaderboardReset h],
      (∀ f, (ep im f).raised = false ↔ ∃ c, f.Argument 1 = .function c) ∧
      (∀ f g, f.Argument 1 = g.Argument 1 → ep im f = ep im g) ∧
      (∀ c, ep im ⟨[.function c]⟩ = (im, .error "expects a function")) := by
  have single : ∀ mode,
      (∀ f, (registerSingleton mode im f).raised = false ↔ ∃ c, f.Argument 1 = .function c) ∧
      (∀ f g, f.Argument 1 = g.Argument 1 →
        registerSingleton mode im f = registerSingleton mode im g) ∧
      (∀ c, registerSingleton mode im ⟨[.function c]⟩ = (im, .error "expects a function")) := by
    intro mode
    refine ⟨?_, ?_, ?_⟩
    · intro f
      rcases registerSingleton_cases mode im f with ⟨c, h1, heq⟩ | ⟨h1, heq⟩
      · rw [heq]
        exact ⟨fun _ => ⟨c, h1⟩, fun _ => rfl⟩
      · rw [heq]
        constructor
        · intro hok
          simp [Outcome.raised] at hok
        · rintro ⟨c, hc⟩
          exact absurd hc (h1 c)
    · intro f g hfg
      unfold registerSingleton
      rw [hfg]
    · intro c
      rfl
  intro ep hep
  simp only [List.mem_cons, List.mem_singleton, List.not_mem_nil, or_false] at hep
  rcases hep with rfl | rfl | rfl | rfl
  · rw [registerMatchmakerMatched_eq]; exact single _
  · rw [registerTournamentEnd_eq]; exact single _
  · rw [registerTournamentReset_eq]; exact single _
  · rw [registerLeaderboardReset_eq]; exact single _

/-- C16 at a concrete input: `registerMatchmakerMatched(fn)`, the callable being the only
argument, raises "expects a function" and stores nothing. -/
theorem singleton_decided_by_argument_one_witness :
    registerMatchmakerMatched sampleHost NewRuntimeJavascriptInitModule ⟨[.function 7]⟩ =
      (NewRuntimeJavascriptInitModule, .error "expects a function") :=
  (singleton_decided_by_argument_one sampleHost NewRuntimeJavascriptInitModule
    (registerMatchmakerMatched sampleHost) (List.mem_cons_self _ _)).2.2 7

/-- C17: each of the five name-keyed entry points checks the name before the handler.
When the name is null, undefined, not a string or empty the error is "expects a
non empty string", whatever the handler argument is; the error "expects a
function" is raised exactly when the name is a non-empty string and the handler is
not callable. -/
theorem name_checked_before_handler (h : Host) (im : RuntimeJavascriptInitModule)
    (f : FunctionCall) :
    ∀ ep ∈ [registerRpc h, registerReqBefore h, registerReqAfter h, registerRTBefore h,
        registerRTAfter h],
      ((f.Argument 0 = .null ∨ f.Argument 0 = .undefined ∨
          (∀ s, f.Argument 0 ≠ .string s) ∨ f.Argument 0 = .string "") →
        ep im f = (im, .error "expects a non empty string")) ∧
      ((ep im f).2 = .error "expects a function" ↔
        (∃ name, f.Argument 0 = .string name ∧ name ≠ "") ∧
          ∀ c, f.Argument 1 ≠ .function c) := by
  have named : ∀ mode keyOf,
      ((f.Argument 0 = .null ∨ f.Argument 0 = .undefined ∨
          (∀ s, f.Argument 0 ≠ .string s) ∨ f.Argument 0 = .string "") →
        registerNamed mode keyOf im f = (im, .error "expects a non empty string")) ∧
      ((registerNamed mode keyOf im f).2 = .error "expects a function" ↔
        (∃ name, f.Argument 0 = .string name ∧ name ≠ "") ∧
          ∀ c, f.Argument 1 ≠ .function c) := by
    intro mode keyOf
    rcases registerNamed_cases mode keyOf im f with
      ⟨name, fn, h0, hne, h1, heq⟩ | ⟨hbad, heq⟩ | ⟨⟨name, h0, hne⟩, h1, heq⟩
    · constructor
      · rintro (hb | hb | hb | hb)
        · rw [h0] at hb; cases hb
        · rw [h0] at hb; cases hb
        · exact absurd h0 (hb name)
        · rw [h0] at hb
          exact absurd (JsValue.string.inj hb) hne
      · rw [heq]
        constructor
        · intro herr
          cases herr
        · rintro ⟨-, hnot⟩
          exact absurd h1 (hnot fn)
    · refine ⟨fun _ => heq, ?_⟩
      rw [heq]
      constructor
      · intro herr
        have hmsg := Except.error.inj herr
        exact absurd hmsg (by decide)
      · rintro ⟨⟨name, h0, hne⟩, -⟩
        rcases hbad with hb | hb
        · exact absurd h0 (hb name)
        · rw [h0] at hb
          exact absurd (JsValue.string.inj hb) hne
    · constructor
      · rintro (hb | hb | hb | hb)
        · rw [h0] at hb; cases hb
        · rw [h0] at hb; cases hb
        · exact absurd h0 (hb name)
        · rw [h0] at hb
          exact absurd (JsValue.string.inj hb) hne
      · rw [heq]
        exact ⟨fun _ => ⟨⟨name, h0, hne⟩, h1⟩, fun _ => rfl⟩
  intro ep hep
  simp only [List.mem_cons, List.mem_singleton, List.not_mem_nil, or_false] at hep
  rcases hep with rfl | rfl | rfl | rfl | rfl
  · rw [registerRpc_eq]; exact named _ _
  · rw [registerReqBefore_eq]; exact named _ _
  · rw [registerReqAfter_eq]; exact named _ _
  · rw [registerRTBefore_eq]; exact named _ _
  · rw [registerRTAfter_eq]; exact named _ _

/-- C17 at a concrete input: `registerRpc(null, 42)`, where both arguments are wrong, is
refused for its name. -/
theorem name_checked_before_handler_witness :
    registerRpc sampleHost NewRuntimeJavascriptInitModule ⟨[.null, .number 42]⟩ =
      (NewRuntimeJavascriptInitModule, .error "expects a non empty string") :=
  ((name_checked_before_handler sampleHost NewRuntimeJavascriptInitModule
    ⟨[.null, .number 42]⟩ (registerRpc sampleHost) (List.mem_cons_self _ _)).1) (Or.inl rfl)

/-! ## The order of two registrations -/

/-- An announcement made before a write does not change what the write leaves in
the registry and in the match-bundle map. -/
theorem registerCallbackFn_announceCallbackFn (im : RuntimeJavascriptInitModule)
    (m : RuntimeExecutionMode) (k : String) (c : Callable) (m' : RuntimeExecutionMode)
    (k' : String) :
    (registerCallbackFn (announceCallbackFn im m' k') m k c).Callbacks =
        (registerCallbackFn im m k c).Callbacks ∧
      (registerCallbackFn (announceCallbackFn im m' k') m k c).MatchCallbacks =
        (registerCallbackFn im m k c).MatchCallbacks := by
  cases m <;> exact ⟨rfl, rfl⟩

/-- Two writes of `registerCallbackFn` to different targets can be swapped. -/
theorem registerCallbackFn_comm (h : Host) (im : RuntimeJavascriptInitModule)
    (m1 m2 : RuntimeExecutionMode) (k1 k2 : String) (c1 c2 : Callable)
    (hs1 : keyShape h m1 k1) (hs2 : keyShape h m2 k2)
    (hne : Target.callback m1 k1 ≠ Target.callback m2 k2) :
    registerCallbackFn (registerCallbackFn im m1 k1 c1) m2 k2 c2 =
      registerCallbackFn (registerCallbackFn im m2 k2 c2) m1 k1 c1 := by
  have hk : m1 = m2 → k1 ≠ k2 := fun hm hk => hne (by rw [hm, hk])
  cases m1 <;> cases m2 <;>
    first
    | rfl
    | (exfalso
       simp only [keyShape] at hs1 hs2
       exact hk rfl (hs1.trans hs2.symm))
    | (simp only [registerCallbackFn]
       rw [Finmap.insert_insert_of_ne _ (hk rfl)])

/-- A write of `registerCallbackFn` and a write to the match-bundle map can be swapped. -/
theorem registerCallbackFn_bundle (im : RuntimeJavascriptInitModule)
    (m : RuntimeExecutionMode) (k : String) (c : Callable) (n : String) (b : jsMatchHandlers) :
    registerCallbackFn { im with MatchCallbacks := im.MatchCallbacks.insert n b } m k c =
      { registerCallbackFn im m k c with
        MatchCallbacks := (registerCallbackFn im m k c).MatchCallbacks.insert n b } := by
  cases m <;> rfl

/-- C18: two registrations that return normally and target different storage (the
maps or slots of different categories, different keys of one map, or different
match-type names) leave the same registry in either order: the Rpc, Before and
After maps and the four singleton slots, and the match-bundle map. -/
theorem different_targets_commute (h : Host) (e1 e2 : String × EntryFn)
    (he1 : e1 ∈ mappings h) (he2 : e2 ∈ mappings h)
    (im : RuntimeJavascriptInitModule) (f1 f2 : FunctionCall)
    (ok1 : (e1.2 im f1).raised = false) (ok2 : (e2.2 im f2).raised = false)
    (hdiff : targetOf h e1.1 f1 ≠ targetOf h e2.1 f2) :
    (e2.2 (e1.2 im f1).1 f2).1.Callbacks = (e1.2 (e2.2 im f2).1 f1).1.Callbacks ∧
      (e2.2 (e1.2 im f1).1 f2).1.MatchCallbacks
        = (e1.2 (e2.2 im f2).1 f1).1.MatchCallbacks := by
  rcases entry_effect h e1 he1 f1 with
    ⟨m1, k1, c1, hs1, ht1, heq1⟩ | ⟨n1, b1, -, ht1, heq1⟩ | ⟨msg1, heq1⟩
  · rcases entry_effect h e2 he2 f2 with
      ⟨m2, k2, c2, hs2, ht2, heq2⟩ | ⟨n2, b2, -, ht2, heq2⟩ | ⟨msg2, heq2⟩
    · have hne : Target.callback m1 k1 ≠ Target.callback m2 k2 := by
        intro hcon
        apply hdiff
        rw [ht1, ht2, hcon]
      have hswap := registerCallbackFn_comm h im m1 m2 k1 k2 c1 c2 hs1 hs2 hne
      have hleft :=
        registerCallbackFn_announceCallbackFn (registerCallbackFn im m1 k1 c1) m2 k2 c2 m1 k1
      have hright :=
        registerCallbackFn_announceCallbackFn (registerCallbackFn im m2 k2 c2) m1 k1 c1 m2 k2
      simp only [heq1, heq2]
      constructor
      · show (registerCallbackFn (announceCallbackFn (registerCallbackFn im m1 k1 c1) m1 k1)
            m2 k2 c2).Callbacks =
          (registerCallbackFn (announceCallbackFn (registerCallbackFn im m2 k2 c2) m2 k2)
            m1 k1 c1).Callbacks
        rw [hleft.1, hright.1, hswap]
      · show (registerCallbackFn (announceCallbackFn (registerCallbackFn im m1 k1 c1) m1 k1)
            m2 k2 c2).MatchCallbacks =
          (registerCallbackFn (announceCallbackFn (registerCallbackFn im m2 k2 c2) m2 k2)
            m1 k1 c1).MatchCallbacks
        rw [hleft.2, hright.2, hswap]
    · simp only [heq1, heq2]
      cases m1 <;> exact ⟨rfl, rfl⟩
    · rw [heq2] at ok2
      simp [Outcome.raised] at ok2
  · rcases entry_effect h e2 he2 f2 with
      ⟨m2, k2, c2, hs2, ht2, heq2⟩ | ⟨n2, b2, -, ht2, heq2⟩ | ⟨msg2, heq2⟩
    · simp only [heq1, heq2]
      cases m2 <;> exact ⟨rfl, rfl⟩
    · have hne : n1 ≠ n2 := by
        intro hcon
        apply hdiff
        rw [ht1, ht2, hcon]
      simp only [heq1, heq2, true_and]
      exact Finmap.insert_insert_of_ne _ hne
    · rw [heq2] at ok2
      simp [Outcome.raised] at ok2
  · rw [heq1] at ok1
    simp [Outcome.raised] at ok1

/-- C18 at a concrete input: `registerReqBefore("x", 1)` and `registerRTBefore("x", 2)` write
different keys of the Before map, and either order leaves the same map. -/
theorem different_targets_commute_witness :
    (registerRTBefore sampleHost
        (registerReqBefore sampleHost NewRuntimeJavascriptInitModule
          ⟨[.string "x", .function 1]⟩).1 ⟨[.string "x", .function 2]⟩).1.Callbacks.Before =
      (registerReqBefore sampleHost
        (registerRTBefore sampleHost NewRuntimeJavascriptInitModule
          ⟨[.string "x", .function 2]⟩).1 ⟨[.string "x", .function 1]⟩).1.Callbacks.Before :=
  congrArg RuntimeJavascriptCallbacks.Before
    (different_targets_commute sampleHost ("registerReqBefore", registerReqBefore sampleHost)
      ("registerRTBefore", registerRTBefore sampleHost)
      (by simp [mappings]) (by simp [mappings])
      NewRuntimeJavascriptInitModule ⟨[.string "x", .function 1]⟩ ⟨[.string "x", .function 2]⟩
      (by decide) (by decide) (by decide)).1

end Server
